import Mathlib

/-!
# CheckGeolocation: a verification development

A shallow embedding of the Go program `server.go` / `server_util.go` (a one-handler
web service that reports the IP address of the caller, time zone and location) together
with the parts of the Go standard library its behaviour depends on.

Conventions of the embedding.

* A Go `string` is a Lean `String`.  Every delimiter the program looks for is an
  ASCII character, so scanning the characters of a string agrees with the scan Go makes of
  its bytes.
* A Go `byte` is a `Nat`; a `net.IP` or `net.IPMask` is a `List Nat`, the nil slice
  being the empty list.
* The standard library functions (`net.ParseIP`, `net.ParseCIDR`, `IP.To4`,
  `IPNet.Contains`, `strings.Split`, the escaper of `html/template`, ...) are
  transcribed from the Go sources (the `net` package as of Go 1.17 to 1.21, whose
  IPv4 parser rejects leading zeroes).
* The outbound HTTP call of `getGeolocation` is an input of the model (`Reply`):
  what `http.Get`, `ioutil.ReadAll` and `json.Unmarshal` delivered.
* A Go run-time panic is the value `none` of an `Option`.
-/

namespace CheckGeolocation

/-! ## Package `strings` -/

namespace strings

/-- Number of non-overlapping occurrences of the non-empty `sep` in `s`; `skip` is
the number of characters still covered by the occurrence found last. -/
def countAux (sep : List Char) : Nat → List Char → Nat
  | _, [] => 0
  | 0, c :: cs =>
    if sep.isPrefixOf (c :: cs) then 1 + countAux sep (sep.length - 1) cs
    else countAux sep 0 cs
  | k + 1, _ :: cs => countAux sep k cs

/-- Pieces of `s` between the non-overlapping occurrences of the non-empty `sep`;
`skip` is the number of characters still covered by the occurrence found last. -/
def splitAux (sep : List Char) : Nat → List Char → List (List Char)
  | _, [] => [[]]
  | 0, c :: cs =>
    if sep.isPrefixOf (c :: cs) then [] :: splitAux sep (sep.length - 1) cs
    else
      match splitAux sep 0 cs with
      | [] => [[c]]
      | piece :: pieces => (c :: piece) :: pieces
  | k + 1, _ :: cs => splitAux sep k cs

/-- Go `strings.Contains(s, substr)`: whether `substr` occurs within `s`. -/
def containsAux (substr : List Char) : List Char → Bool
  | [] => substr.isEmpty
  | c :: cs => substr.isPrefixOf (c :: cs) || containsAux substr cs

/-- Go `strings.Contains`. -/
def Contains (s substr : String) : Bool :=
  containsAux substr.data s.data

/-- Go `strings.Count`: the number of non-overlapping instances of `substr` in `s`;
for the empty `substr` it is one more than the number of characters of `s`. -/
def Count (s substr : String) : Nat :=
  if substr.data = [] then s.data.length + 1
  else countAux substr.data 0 s.data

/-- Go `strings.Split`: slices `s` into the substrings separated by `sep`; for the
empty `sep` it splits after each character. -/
def Split (s sep : String) : List String :=
  if sep.data = [] then s.data.map (fun c => String.mk [c])
  else (splitAux sep.data 0 s.data).map String.mk

/-- Go `strings.TrimLeft`: `s` without its leading characters contained in `cutset`. -/
def TrimLeft (s cutset : String) : String :=
  String.mk (s.data.dropWhile (fun c => cutset.data.contains c))

end strings

/-! ## Package `net` -/

namespace net

/-- A Go `net.IP`: a slice of bytes, nil being `[]`. -/
abbrev IP := List Nat

/-- A Go `net.IPMask`. -/
abbrev IPMask := List Nat

/-- A Go `net.IPNet`: a network number and its mask. -/
structure IPNet where
  IP : IP
  Mask : IPMask
  deriving DecidableEq, Repr

def IPv4len : Nat := 4

def IPv6len : Nat := 16

/-- Bigger than we need, not too big to worry about overflow. -/
def big : Nat := 0xFFFFFF

def v4InV6Prefix : List Nat := [0, 0, 0, 0, 0, 0, 0, 0, 0, 0, 0xff, 0xff]

/-- Go `net.IPv4(a, b, c, d)`: the 16-byte form of the IPv4 address a.b.c.d. -/
def IPv4 (a b c d : Nat) : IP := v4InV6Prefix ++ [a, b, c, d]

def IPv6loopback : IP := [0, 0, 0, 0, 0, 0, 0, 0, 0, 0, 0, 0, 0, 0, 0, 1]

/-- The loop of `dtoi`: `n` is the value read so far and `i` the number of digits. -/
def dtoiLoop : List Char → Nat → Nat → Nat × Nat × Bool
  | [], n, i => if i = 0 then (0, 0, false) else (n, i, true)
  | c :: cs, n, i =>
    if '0' ≤ c ∧ c ≤ '9' then
      let n1 := n * 10 + (c.toNat - '0'.toNat)
      if n1 ≥ big then (big, i, false) else dtoiLoop cs n1 (i + 1)
    else if i = 0 then (0, 0, false) else (n, i, true)

/-- Go `dtoi`: decimal to integer.  Returns number, characters consumed, success. -/
def dtoi (s : List Char) : Nat × Nat × Bool := dtoiLoop s 0 0

/-- The loop of `xtoi`. -/
def xtoiLoop : List Char → Nat → Nat → Nat × Nat × Bool
  | [], n, i => if i = 0 then (0, i, false) else (n, i, true)
  | c :: cs, n, i =>
    if '0' ≤ c ∧ c ≤ '9' then
      let n1 := n * 16 + (c.toNat - '0'.toNat)
      if n1 ≥ big then (0, i, false) else xtoiLoop cs n1 (i + 1)
    else if 'a' ≤ c ∧ c ≤ 'f' then
      let n1 := n * 16 + (c.toNat - 'a'.toNat) + 10
      if n1 ≥ big then (0, i, false) else xtoiLoop cs n1 (i + 1)
    else if 'A' ≤ c ∧ c ≤ 'F' then
      let n1 := n * 16 + (c.toNat - 'A'.toNat) + 10
      if n1 ≥ big then (0, i, false) else xtoiLoop cs n1 (i + 1)
    else if i = 0 then (0, i, false) else (n, i, true)

/-- Go `xtoi`: hexadecimal to integer.  Returns number, characters consumed, success. -/
def xtoi (s : List Char) : Nat × Nat × Bool := xtoiLoop s 0 0

/-- The loop `for i := 0; i < IPv4len; i++` of `parseIPv4`, with `k` iterations left:
returns the octets read and the unread rest of the string. -/
def parseIPv4Loop : Nat → Nat → List Char → Option (List Nat × List Char)
  | 0, _, s => some ([], s)
  | k + 1, i, s =>
    if s.length = 0 then none
    else if i > 0 ∧ s.head? ≠ some '.' then none
    else
      let s1 := if i > 0 then s.tail else s
      match dtoi s1 with
      | (n, c, ok) =>
        if !ok || n > 0xFF then none
        else if c > 1 ∧ s1.head? = some '0' then none
        else
          match parseIPv4Loop k (i + 1) (s1.drop c) with
          | none => none
          | some (p, rest) => some (n :: p, rest)

/-- Go `parseIPv4`: parse an IPv4 address (d.d.d.d); nil (`[]`) when malformed. -/
def parseIPv4 (s : List Char) : IP :=
  match parseIPv4Loop IPv4len 0 s with
  | some ([a, b, c, d], []) => IPv4 a b c d
  | _ => []

/-- State of the main loop of `parseIPv6`. -/
structure V6State where
  s : List Char
  i : Nat
  ellipsis : Option Nat
  ip : List Nat
  deriving DecidableEq, Repr

/-- The loop `for i < IPv6len` of `parseIPv6`; every iteration that continues
advances `i` by two, so `fuel = 8` iterations are never exceeded.  Returns the state
at the exit of the loop, or `none` where the Go code returns nil. -/
def parseIPv6Loop : Nat → V6State → Option V6State
  | 0, st => some st
  | fuel + 1, st =>
    if ¬ st.i < IPv6len then some st
    else
      match xtoi st.s with
      | (n, c, ok) =>
        if !ok || n > 0xFFFF then none
        else if c < st.s.length ∧ st.s.get? c = some '.' then
          if st.ellipsis.isNone ∧ st.i ≠ IPv6len - IPv4len then none
          else if st.i + IPv4len > IPv6len then none
          else
            let ip4 := parseIPv4 st.s
            if ip4 = [] then none
            else
              some { s := [], i := st.i + IPv4len, ellipsis := st.ellipsis,
                     ip := (((st.ip.set st.i (ip4.getD 12 0)).set (st.i + 1) (ip4.getD 13 0)).set
                              (st.i + 2) (ip4.getD 14 0)).set (st.i + 3) (ip4.getD 15 0) }
        else
          let ip1 := (st.ip.set st.i (n >>> 8)).set (st.i + 1) (n % 256)
          let i1 := st.i + 2
          let s1 := st.s.drop c
          if s1.length = 0 then some { s := s1, i := i1, ellipsis := st.ellipsis, ip := ip1 }
          else if s1.head? ≠ some ':' ∨ s1.length = 1 then none
          else
            let s2 := s1.tail
            if s2.head? = some ':' then
              if st.ellipsis.isSome then none
              else
                let s3 := s2.tail
                if s3.length = 0 then some { s := s3, i := i1, ellipsis := some i1, ip := ip1 }
                else parseIPv6Loop fuel { s := s3, i := i1, ellipsis := some i1, ip := ip1 }
            else parseIPv6Loop fuel { s := s2, i := i1, ellipsis := st.ellipsis, ip := ip1 }

/-- The two loops of `parseIPv6` that expand the ellipsis: the bytes from `ellipsis`
to `i - 1` move up by `n = IPv6len - i` places and the gap is zeroed. -/
def expandEllipsis (ip : List Nat) (i ellipsis : Nat) : List Nat :=
  let n := IPv6len - i
  let moved := (List.range (i - ellipsis)).foldl
    (fun acc k => acc.set (i - 1 - k + n) (acc.getD (i - 1 - k) 0)) ip
  (List.range n).foldl (fun acc k => acc.set (ellipsis + n - 1 - k) 0) moved

/-- Go `parseIPv6`: parse a literal IPv6 address (RFC 4291, RFC 5952); nil (`[]`)
when malformed. -/
def parseIPv6 (s : List Char) : IP :=
  let ip0 := List.replicate IPv6len 0
  let leading := s.length ≥ 2 ∧ s.get? 0 = some ':' ∧ s.get? 1 = some ':'
  let ellipsis0 : Option Nat := if leading then some 0 else none
  let s0 := if leading then s.drop 2 else s
  if leading ∧ s0.length = 0 then ip0
  else
    match parseIPv6Loop 8 { s := s0, i := 0, ellipsis := ellipsis0, ip := ip0 } with
    | none => []
    | some st =>
      if st.s.length ≠ 0 then []
      else if st.i < IPv6len then
        match st.ellipsis with
        | none => []
        | some e => expandEllipsis st.ip st.i e
      else if st.ellipsis.isSome then []
      else st.ip

/-- The scan of `ParseIP` for the first `.` or `:`, which selects the parser. -/
def parseIPScan (s : List Char) : List Char → IP
  | [] => []
  | c :: cs =>
    if c = '.' then parseIPv4 s
    else if c = ':' then parseIPv6 s
    else parseIPScan s cs

/-- Go `net.ParseIP`: parses `s` as an IP address, returning the 16-byte result, or
nil (`[]`) if `s` is not a valid textual representation of an IP address. -/
def ParseIP (s : String) : IP := parseIPScan s.data s.data

/-- Go `isZeros`: whether all bytes are zero. -/
def isZeros (p : List Nat) : Bool := p.all (fun b => b == 0)

/-- Go `allFF`: whether all bytes are 0xff. -/
def allFF (b : List Nat) : Bool := b.all (fun c => c == 0xff)

/-- Go `IP.To4`: the 4-byte form of an IPv4 address, nil (`[]`) for any other. -/
def To4 (ip : IP) : IP :=
  if ip.length = IPv4len then ip
  else if ip.length = IPv6len ∧ isZeros (ip.take 10) ∧ ip.getD 10 0 = 0xff ∧ ip.getD 11 0 = 0xff then
    (ip.drop 12).take 4
  else []

/-- Go `IP.Equal`: an IPv4 address and the same address in IPv6 form are equal. -/
def Equal (ip x : IP) : Bool :=
  if ip.length = x.length then ip == x
  else if ip.length = IPv4len ∧ x.length = IPv6len then
    x.take 12 == v4InV6Prefix && ip == x.drop 12
  else if ip.length = IPv6len ∧ x.length = IPv4len then
    ip.take 12 == v4InV6Prefix && ip.drop 12 == x
  else false

/-- Go `IP.IsLoopback`. -/
def IsLoopback (ip : IP) : Bool :=
  let ip4 := To4 ip
  if ip4 ≠ [] then ip4.getD 0 0 == 127
  else Equal ip IPv6loopback

/-- Go `IP.IsLinkLocalMulticast`. -/
def IsLinkLocalMulticast (ip : IP) : Bool :=
  let ip4 := To4 ip
  if ip4 ≠ [] then ip4.getD 0 0 == 224 && ip4.getD 1 0 == 0 && ip4.getD 2 0 == 0
  else ip.length == IPv6len && ip.getD 0 0 == 0xff && (ip.getD 1 0) &&& 0x0f == 0x02

/-- Go `IP.IsLinkLocalUnicast`. -/
def IsLinkLocalUnicast (ip : IP) : Bool :=
  let ip4 := To4 ip
  if ip4 ≠ [] then ip4.getD 0 0 == 169 && ip4.getD 1 0 == 254
  else ip.length == IPv6len && ip.getD 0 0 == 0xfe && (ip.getD 1 0) &&& 0xc0 == 0x80

/-- The loop of `CIDRMask` over the `l` bytes of the mask, `n` one-bits being left. -/
def cidrMaskLoop : Nat → Nat → List Nat
  | 0, _ => []
  | l + 1, n =>
    if n ≥ 8 then 0xff :: cidrMaskLoop l (n - 8)
    else (0xff - (0xff >>> n)) :: cidrMaskLoop l 0

/-- Go `CIDRMask(ones, bits)`: the mask of `ones` one-bits followed by zeroes, `bits`
bits in all; nil (`[]`) for a bad argument. -/
def CIDRMask (ones bits : Nat) : IPMask :=
  if bits ≠ 8 * IPv4len ∧ bits ≠ 8 * IPv6len then []
  else if ones > bits then []
  else cidrMaskLoop (bits / 8) ones

/-- Go `IP.Mask`: the result of masking `ip` with `mask`. -/
def Mask (ip : IP) (mask : IPMask) : IP :=
  let mask1 := if mask.length = IPv6len ∧ ip.length = IPv4len ∧ allFF (mask.take 12) then mask.drop 12 else mask
  let ip1 := if mask1.length = IPv4len ∧ ip.length = IPv6len ∧ ip.take 12 = v4InV6Prefix then ip.drop 12 else ip
  if ip1.length ≠ mask1.length then []
  else List.zipWith (fun a b => a &&& b) ip1 mask1

/-- Go `bytealg.IndexByteString`, as position of the first `c` if there is one. -/
def indexByte (s : List Char) (c : Char) : Option Nat :=
  if s.contains c then some (s.indexOf c) else none

/-- Go `net.ParseCIDR`, the `*IPNet` it returns: `none` is the nil pointer returned
together with an error. -/
def ParseCIDR (s : String) : Option IPNet :=
  match indexByte s.data '/' with
  | none => none
  | some i =>
    let addr := s.data.take i
    let mask := s.data.drop (i + 1)
    let ip4 := parseIPv4 addr
    let iplen := if ip4 = [] then IPv6len else IPv4len
    let ip := if ip4 = [] then parseIPv6 addr else ip4
    match dtoi mask with
    | (n, j, ok) =>
      if ip = [] ∨ !ok ∨ j ≠ mask.length ∨ n > 8 * iplen then none
      else
        let m := CIDRMask n (8 * iplen)
        some { IP := Mask ip m, Mask := m }

/-- Go `networkNumberAndMask`. -/
def networkNumberAndMask (n : IPNet) : IP × IPMask :=
  let ip4 := To4 n.IP
  if ip4 = [] ∧ n.IP.length ≠ IPv6len then ([], [])
  else
    let ip := if ip4 = [] then n.IP else ip4
    if n.Mask.length = IPv4len then
      if ip.length ≠ IPv4len then ([], []) else (ip, n.Mask)
    else if n.Mask.length = IPv6len then
      if ip.length = IPv4len then (ip, n.Mask.drop 12) else (ip, n.Mask)
    else ([], [])

/-- Go `IPNet.Contains`: whether the network includes `ip`. -/
def Contains (n : IPNet) (ip : IP) : Bool :=
  match networkNumberAndMask n with
  | (nn, m) =>
    let ip1 := if To4 ip ≠ [] then To4 ip else ip
    let l := ip1.length
    if l ≠ nn.length then false
    else (List.range l).all (fun i => nn.getD i 0 &&& m.getD i 0 == ip1.getD i 0 &&& m.getD i 0)

end net

/-! ## `server_util.go` -/

/-- The CIDR literals `init` walks through. -/
def privateCIDRs : List String :=
  [ "127.0.0.0/8",    -- IPv4 loopback
    "10.0.0.0/8",     -- RFC1918
    "172.16.0.0/12",  -- RFC1918
    "192.168.0.0/16", -- RFC1918
    "169.254.0.0/16", -- RFC3927 link-local
    "::1/128",        -- IPv6 loopback
    "fe80::/10",      -- IPv6 link-local
    "fc00::/7" ]      -- IPv6 unique local addr

/-- The package variable `privateIPBlocks` once `init` has run: the block of every
literal is appended, also the nil block (`none`) of a literal that does not parse
(the error is dropped). -/
def privateIPBlocks : List (Option net.IPNet) :=
  privateCIDRs.foldl (fun blocks cidr => blocks ++ [net.ParseCIDR cidr]) []

/-- The loop of `isPrivateIP` over the blocks; `none` is the panic of calling
`Contains` on a nil block. -/
def isPrivateIPLoop (ip : net.IP) : List (Option net.IPNet) → Option Bool
  | [] => some false
  | none :: _ => none
  | some block :: blocks =>
    if net.Contains block ip then some true else isPrivateIPLoop ip blocks

/-- The function `isPrivateIP` of `server_util.go`. -/
def isPrivateIP (ip : net.IP) : Option Bool :=
  if net.IsLoopback ip || net.IsLinkLocalUnicast ip || net.IsLinkLocalMulticast ip then some true
  else isPrivateIPLoop ip privateIPBlocks

/-! ## `server.go`: the normalizer -/

/-- The function `getValidIP` of `server.go`: return a valid IPv4/IPv6 or empty
string. -/
def getValidIP (ip : String) : String :=
  if net.ParseIP ip = [] then
    -- IP is invalid. Check if IP has port in it
    if strings.Contains ip "]" then
      let split := strings.Split ip "]"
      strings.TrimLeft (split.getD 0 "") "["
    else if strings.Count ip ":" = 1 then
      let split := strings.Split ip ":"
      split.getD 0 ""
    else ""
  else ip

/-! ## Package `html/template`, as far as the template of `generateResponse` needs it -/

namespace template

/-- Go `htmlReplacementTable`, by code point: the replacement of a character special
in HTML text, `""` for a character that stands for itself. -/
def htmlReplacementTable (r : Nat) : String :=
  if r = 0 then String.mk [Char.ofNat 0xFFFD]
  else if r = 34 then "&#34;"       -- the double quote
  else if r = 38 then "&amp;"       -- &
  else if r = 39 then "&#39;"       -- the single quote
  else if r = 43 then "&#43;"       -- +
  else if r = 60 then "&lt;"        -- <
  else if r = 62 then "&gt;"        -- >
  else ""

/-- Length of the Go slice `htmlReplacementTable` (its last index is that of `>`). -/
def htmlReplacementTableLen : Nat := 63

/-- Go `htmlReplacer(s, htmlReplacementTable, true)`, character by character. -/
def htmlReplacer : List Char → List Char
  | [] => []
  | c :: cs =>
    if c.toNat < htmlReplacementTableLen ∧ (htmlReplacementTable c.toNat).data ≠ [] then
      (htmlReplacementTable c.toNat).data ++ htmlReplacer cs
    else c :: htmlReplacer cs

/-- Go `htmlEscaper` on a plain string: the escaper `html/template` adds to an action
in HTML text context, such as the `{{ . }}` of `<div>{{ . }}</div>`. -/
def htmlEscaper (s : String) : String := String.mk (htmlReplacer s.data)

/-- What executing the parsed template
`<html><head><title></title></head><body>{{range .Items}}<div>{{ . }}</div>{{end}}</body></html>`
writes for the data `Items`. -/
def executeResHtml (Items : List String) : String :=
  "<html><head><title></title></head><body>"
    ++ String.join (Items.map (fun item => "<div>" ++ htmlEscaper item ++ "</div>"))
    ++ "</body></html>"

end template

/-! ## `server.go`: the renderer -/

/-- The fallback `errHtml` of `generateResponse`. -/
def errHtml (ip : String) : String :=
  "<html><head><title></title></head><body><div>Current IP Address: " ++ ip
    ++ "</div><div>Time Zone: NA</div><div>Location: NA</div></body></html>"

/-- The function `generateResponse` of `server.go`.  `Parse` of the constant template
and `Execute` into a `bytes.Buffer` return a nil error, so neither `return errHtml`
is taken and the result is what `Execute` wrote. -/
def generateResponse (ip timezone location : String) : String :=
  template.executeResHtml
    [ "Current IP Address: " ++ ip,
      "Time Zone: " ++ timezone,
      "Location: " ++ location ]

/-! ## `server.go`: the geolocation client -/

/-- What `encoding/json` stores in an `interface{}`: nil, a bool, a float64, a string,
a `[]interface{}` or a `map[string]interface{}`.  The program only ever prints a
float64, a slice and a map with the verb `%s`, so these carry the text `fmt` prints
for them. -/
inductive Value
  | null
  | bool (b : Bool)
  | number (shown : String)
  | string (s : String)
  | array (shown : String)
  | object (shown : String)
  deriving DecidableEq, Repr

/-- Go `fmt` on one operand of the verb `%s`. -/
def sprintS : Value → String
  | .null => "%!s(<nil>)"
  | .bool b => "%!s(bool=" ++ (if b then "true" else "false") ++ ")"
  | .number shown => shown
  | .string s => s
  | .array shown => shown
  | .object shown => shown

/-- The outcome of the one outbound call as `getGeolocation` sees it: which of
`http.Get`, `ioutil.ReadAll` and `json.Unmarshal` returned a non-nil error (with the
text of the error), or else the map the body was decoded into (a body `null`
leaves the map nil, which reads like the empty map). -/
inductive Reply
  | getErr (err : String)
  | readErr (err : String)
  | unmarshalErr (err : String)
  | decoded (bd : List (String × Value))
  deriving DecidableEq, Repr

/-- Go map index `bd[key]`: nil for an absent key. -/
def index (bd : List (String × Value)) (key : String) : Value :=
  (bd.lookup key).getD Value.null

-- Error code injection for unit test
def HttpNoErr : Int := 0

def HttpGetErr : Int := 1

def HttpReadAllErr : Int := 2

def HttpUnmarshalErr : Int := 3

def HttpReqErr : Int := 4

/-- The function `getGeolocation` of `server.go`; `get url` is the outcome of the
outbound call for `url`.  Returns timezone, location, error string; `none` is the
panic of the type assertion `bd["timezone"].(string)`. -/
def getGeolocation (get : String → Reply) (ip : String) (errorInsert : Int) :
    Option (String × String × String) :=
  let timezone := "NA"
  let location := "NA"
  let url := "http://ipapi.co/" ++ ip ++ "/json"
  match get url with
  | .getErr err => some (timezone, location, "Failed to call Get: " ++ err)
  | reply =>
    if errorInsert = HttpGetErr then some (timezone, location, "Failed to call Get: " ++ "<nil>")
    else
      match reply with
      | .readErr err => some (timezone, location, "Failed to read resp body: " ++ err)
      | reply =>
        if errorInsert = HttpReadAllErr then
          some (timezone, location, "Failed to read resp body: " ++ "<nil>")
        else
          match reply with
          | .unmarshalErr err => some (timezone, location, "Failed to unmarshal: " ++ err)
          | reply =>
            if errorInsert = HttpUnmarshalErr then
              some (timezone, location, "Failed to unmarshal: " ++ "<nil>")
            else
              let bd := match reply with
                | .decoded bd => bd
                | _ => []
              if index bd "error" ≠ Value.null ∨ errorInsert = HttpReqErr then
                some (timezone, location, "Failed to get geolocation: " ++ sprintS (index bd "reason"))
              else
                match index bd "timezone" with
                | .string tz =>
                  some (tz,
                    sprintS (index bd "city") ++ ", " ++ sprintS (index bd "region_code") ++ ", "
                      ++ sprintS (index bd "country_code_iso3"),
                    "")
                | _ => none

/-! ## `server.go`: the request handler -/

/-- A Go `http.Header`: the values of every key. -/
abbrev Header := List (String × List String)

/-- Go `Header.Get`: the first value associated with the key, `""` if there is none
(`key` is taken in its canonical form, as `"X-Forwarded-For"` is). -/
def Header.Get (h : Header) (key : String) : String :=
  match h.lookup key with
  | none => ""
  | some [] => ""
  | some (v :: _) => v

/-- The fields of a Go `http.Request` the handler reads. -/
structure Request where
  Host : String
  RemoteAddr : String
  Header : Header
  deriving DecidableEq, Repr

/-- The function `logMsg` of `server.go`: the line handed to `log.Println`. -/
def logMsg (level msg : String) : String := level ++ " - " ++ msg

/-- Everything one run of `handler` does. -/
structure Effects where
  /-- Value given to the response header `Content-Type`. -/
  contentType : String
  /-- Lines logged, in order. -/
  log : List String
  /-- Arguments `ip` of the calls to `getGeolocation`, in order. -/
  lookups : List String
  /-- Calls of `generateResponse`. -/
  renderings : Nat
  /-- Text written to the response. -/
  body : String
  /-- Whether the run ended in a panic. -/
  panicked : Bool
  deriving DecidableEq, Repr

/-- Lines 47 to 51 of `handler`: the candidate address. -/
def candidate (r : Request) : String :=
  if r.Header.Get "X-Forwarded-For" ≠ "" then
    -- Get() always returns the first IP which is the client IP in X-Forwarded-For list
    r.Header.Get "X-Forwarded-For"
  else r.RemoteAddr

/-- The function `handler` of `server.go`; `get` is the outcome of an outbound call. -/
def handler (get : String → Reply) (r : Request) : Effects :=
  let contentType := "text/html; charset=utf-8"
  let log0 := [logMsg "Info" ("Received request from host: " ++ r.Host ++ ", remoteAddr: " ++ r.RemoteAddr)]
  let ip := candidate r
  let log1 := log0 ++ [logMsg "Debug" ("Client IP is: " ++ ip)]
  let ip := getValidIP ip
  if ip = "" then
    -- Just return if IP is invalid. Do not fatal the server
    { contentType := contentType,
      log := log1 ++ [logMsg "Warning" ("Invalid IP: " ++ ip)],
      lookups := [], renderings := 0,
      body := "<html><head><title></title></head><body>Invalid IP: " ++ ip ++ "</body></html>",
      panicked := false }
  else
    match isPrivateIP (net.ParseIP ip) with
    | none =>
      { contentType := contentType, log := log1, lookups := [], renderings := 0, body := "",
        panicked := true }
    | some true =>
      let log2 := log1 ++ [logMsg "Info" ("IP " ++ ip ++ " is a private address")]
      let res := generateResponse ip "NA" "NA"
      { contentType := contentType,
        log := log2 ++ [logMsg "Info" ("Return response to client: " ++ res)],
        lookups := [], renderings := 1, body := res, panicked := false }
    | some false =>
      match getGeolocation get ip HttpNoErr with
      | none =>
        { contentType := contentType, log := log1, lookups := [ip], renderings := 0, body := "",
          panicked := true }
      | some (timezone, location, errStr) =>
        let log2 := if errStr ≠ "" then log1 ++ [logMsg "Warning" errStr] else log1
        let res := generateResponse ip timezone location
        { contentType := contentType,
          log := log2 ++ [logMsg "Info" ("Return response to client: " ++ res)],
          lookups := [ip], renderings := 1, body := res, panicked := false }

/-! ## The words of the specification on private blocks -/

/-- The number an address stands for: its bytes, most significant first. -/
def addrValue (ip : List Nat) : Nat := ip.foldl (fun acc b => acc * 256 + b) 0

/-- An address of `bits` bits lies in the block `base/len` when its `len` leading
bits are those of `base`. -/
def inBlock (bits base len addr : Nat) : Bool :=
  addr / 2 ^ (bits - len) == base / 2 ^ (bits - len)

/-- The IPv4 blocks of the specification: 127.0.0.0/8, 10.0.0.0/8, 172.16.0.0/12,
192.168.0.0/16, 169.254.0.0/16, each as base address and length. -/
def specBlocksV4 : List (Nat × Nat) :=
  [ (addrValue [127, 0, 0, 0], 8), (addrValue [10, 0, 0, 0], 8), (addrValue [172, 16, 0, 0], 12),
    (addrValue [192, 168, 0, 0], 16), (addrValue [169, 254, 0, 0], 16) ]

/-- The IPv6 blocks of the specification: ::1/128, fe80::/10, fc00::/7. -/
def specBlocksV6 : List (Nat × Nat) :=
  [ (addrValue [0, 0, 0, 0, 0, 0, 0, 0, 0, 0, 0, 0, 0, 0, 0, 1], 128),
    (addrValue [0xfe, 0x80, 0, 0, 0, 0, 0, 0, 0, 0, 0, 0, 0, 0, 0, 0], 10),
    (addrValue [0xfc, 0, 0, 0, 0, 0, 0, 0, 0, 0, 0, 0, 0, 0, 0, 0], 7) ]

/-- A well-formed address: 4 or 16 bytes, each below 256. -/
def wellFormedIP (ip : List Nat) : Bool :=
  (ip.length == 4 || ip.length == 16) && ip.all (fun b => b < 256)

/-- The address lies in one of the eight blocks: as an IPv4 address, given by its
4 bytes or by the 16 bytes of its IPv4-in-IPv6 form, in one of the IPv4 blocks; or as
a 16-byte address in one of the IPv6 blocks. -/
def liesInPrivateBlock (ip : List Nat) : Bool :=
  (ip.length == 4 && specBlocksV4.any (fun blk => inBlock 32 blk.1 blk.2 (addrValue ip)))
  || (ip.length == 16 && ip.take 12 == net.v4InV6Prefix
        && specBlocksV4.any (fun blk => inBlock 32 blk.1 blk.2 (addrValue (ip.drop 12))))
  || (ip.length == 16 && specBlocksV6.any (fun blk => inBlock 128 blk.1 blk.2 (addrValue ip)))

/-! ## Vocabulary of the statements -/

/-- A decimal digit. -/
def isDec (c : Char) : Bool := decide ('0' ≤ c ∧ c ≤ '9')

/-- A hexadecimal digit. -/
def isHex (c : Char) : Bool :=
  decide ('0' ≤ c ∧ c ≤ '9') || decide ('a' ≤ c ∧ c ≤ 'f') || decide ('A' ≤ c ∧ c ≤ 'F')

/-- A character of a dotted quad: a decimal digit or the dot. -/
def v4Char (c : Char) : Bool := isDec c || c == '.'

/-- A character of an IP literal: a hexadecimal digit, the dot or the colon. -/
def ipChar (c : Char) : Bool := isHex c || c == '.' || c == ':'

/-- A character the escaper of `html/template` replaces in HTML text: NUL, the double
quote, `&`, the single quote, `+`, `<` and `>`. -/
def htmlSpecial (c : Char) : Bool :=
  c.toNat == 0 || c.toNat == 34 || c.toNat == 38 || c.toNat == 39 || c.toNat == 43
    || c.toNat == 60 || c.toNat == 62

/-- The outbound call got past `http.Get`. -/
def Reply.gotResponse : Reply → Bool
  | .getErr _ => false
  | _ => true

/-- The outbound call got past `http.Get` and `ioutil.ReadAll`. -/
def Reply.gotBody : Reply → Bool
  | .getErr _ => false
  | .readErr _ => false
  | _ => true

/-- The outbound call got past `http.Get`, `ioutil.ReadAll` and `json.Unmarshal`. -/
def Reply.gotObject : Reply → Bool
  | .decoded _ => true
  | _ => false

/-- The error string of a result of `getGeolocation`, `""` for a panic. -/
def errorOf : Option (String × String × String) → String
  | some (_, _, errStr) => errStr
  | none => ""

/-- The timezone and location of a result of `getGeolocation`, `none` for a panic. -/
def fieldsOf : Option (String × String × String) → Option (String × String)
  | some (timezone, location, _) => some (timezone, location)
  | none => none

/-! # Theorems -/

/-! ## Lemmas on package `strings` -/

theorem isPrefixOf_singleton_cons (c d : Char) (cs : List Char) :
    [c].isPrefixOf (d :: cs) = (c == d) := by
  simp [List.isPrefixOf]

theorem containsAux_singleton (c : Char) (s : List Char) :
    strings.containsAux [c] s = s.contains c := by
  induction s with
  | nil => simp [strings.containsAux]
  | cons d ds ih =>
    simp only [strings.containsAux, isPrefixOf_singleton_cons, ih]
    by_cases h : c = d
    · subst h; simp
    · have h2 : ¬ d = c := fun e => h e.symm
      simp [h, h2]

theorem containsAux_append (sub pre post : List Char) :
    strings.containsAux sub (pre ++ (sub ++ post)) = true := by
  induction pre with
  | nil =>
    cases h : sub ++ post with
    | nil =>
      have : sub = [] := (List.append_eq_nil.mp h).1
      simp [strings.containsAux, this]
    | cons d ds =>
      have hp : sub.isPrefixOf (sub ++ post) = true :=
        List.isPrefixOf_iff_prefix.mpr (List.prefix_append sub post)
      simp only [List.nil_append, h] at hp ⊢
      simp [strings.containsAux, hp]
  | cons d ds ih =>
    simp only [List.cons_append, strings.containsAux]
    simp [ih]

theorem countAux_singleton (c : Char) (s : List Char) :
    strings.countAux [c] 0 s = s.count c := by
  induction s with
  | nil => simp [strings.countAux]
  | cons d ds ih =>
    simp only [strings.countAux, isPrefixOf_singleton_cons, List.length_singleton, Nat.sub_self, ih]
    by_cases h : c = d
    · subst h; simp; omega
    · have h2 : ¬ d = c := fun e => h e.symm
      simp [h, List.count_cons, h2]

theorem splitAux_singleton_head (c : Char) (s : List Char) :
    ∃ t, strings.splitAux [c] 0 s = s.takeWhile (fun d => d != c) :: t := by
  induction s with
  | nil => exact ⟨[], by simp [strings.splitAux]⟩
  | cons d ds ih =>
    obtain ⟨t, ht⟩ := ih
    simp only [strings.splitAux, isPrefixOf_singleton_cons, List.length_singleton, Nat.sub_self]
    by_cases h : c = d
    · subst h; simp
    · have h2 : ¬ d = c := fun e => h e.symm
      simp [h, ht, List.takeWhile_cons, h2]

theorem takeWhile_ne_append (c : Char) (a p : List Char) (ha : c ∉ a) :
    (a ++ c :: p).takeWhile (fun d => d != c) = a := by
  induction a with
  | nil => simp
  | cons d ds ih =>
    have hd : d ≠ c := fun e => ha (by simp [e])
    have hds : c ∉ ds := fun e => ha (by simp [e])
    simp [List.takeWhile_cons, hd, ih hds]

/-- Go `strings.Contains` with a one-character pattern is membership of the character. -/
theorem Contains_singleton (s : String) (c : Char) :
    strings.Contains s (String.mk [c]) = s.data.contains c := by
  simp [strings.Contains, containsAux_singleton]

theorem Count_singleton (s : String) (c : Char) :
    strings.Count s (String.mk [c]) = s.data.count c := by
  simp [strings.Count, countAux_singleton]

theorem Split_singleton_head (s : String) (c : Char) :
    (strings.Split s (String.mk [c])).getD 0 "" = String.mk (s.data.takeWhile (fun d => d != c)) := by
  obtain ⟨t, ht⟩ := splitAux_singleton_head c s.data
  simp [strings.Split, ht]

/-! ## Lemmas on the parsers of package `net` -/

theorem dtoiLoop_digits (s : List Char) : ∀ (n i m j : Nat),
    net.dtoiLoop s n i = (m, j, true) → i ≤ j ∧ ∀ c ∈ s.take (j - i), isDec c = true := by
  induction s with
  | nil =>
    intro n i m j h
    simp only [net.dtoiLoop] at h
    split at h
    · simp at h
    · simp only [Prod.mk.injEq, and_true] at h
      simp [h.2]
  | cons d ds ih =>
    intro n i m j h
    simp only [net.dtoiLoop] at h
    split at h
    · rename_i hd
      split at h
      · simp at h
      · obtain ⟨h1, h2⟩ := ih _ _ _ _ h
        refine ⟨by omega, ?_⟩
        have hj : j - i = (j - (i + 1)) + 1 := by omega
        rw [hj, List.take_succ_cons]
        intro c hc
        rcases List.mem_cons.mp hc with rfl | hc
        · simp [isDec, hd]
        · exact h2 c hc
    · split at h
      · simp at h
      · simp only [Prod.mk.injEq, and_true] at h
        simp [h.2]

theorem dtoi_digits (s : List Char) (m j : Nat) (h : net.dtoi s = (m, j, true)) :
    ∀ c ∈ s.take j, isDec c = true := by
  have := (dtoiLoop_digits s 0 0 m j h).2
  simpa using this

theorem xtoiLoop_digits (s : List Char) : ∀ (n i m j : Nat),
    net.xtoiLoop s n i = (m, j, true) → i ≤ j ∧ ∀ c ∈ s.take (j - i), isHex c = true := by
  induction s with
  | nil =>
    intro n i m j h
    simp only [net.xtoiLoop] at h
    split at h
    · simp at h
    · simp only [Prod.mk.injEq, and_true] at h
      simp [h.2]
  | cons d ds ih =>
    intro n i m j h
    have step : ∀ n1, isHex d = true → net.xtoiLoop ds n1 (i + 1) = (m, j, true) →
        i ≤ j ∧ ∀ c ∈ (d :: ds).take (j - i), isHex c = true := by
      intro n1 hd h
      obtain ⟨h1, h2⟩ := ih _ _ _ _ h
      refine ⟨by omega, ?_⟩
      have hj : j - i = (j - (i + 1)) + 1 := by omega
      rw [hj, List.take_succ_cons]
      intro c hc
      rcases List.mem_cons.mp hc with rfl | hc
      · exact hd
      · exact h2 c hc
    simp only [net.xtoiLoop] at h
    split at h
    · rename_i hd
      split at h
      · simp at h
      · exact step _ (by simp [isHex, hd]) h
    · split at h
      · rename_i hd
        split at h
        · simp at h
        · exact step _ (by simp [isHex, hd]) h
      · split at h
        · rename_i hd
          split at h
          · simp at h
          · exact step _ (by simp [isHex, hd]) h
        · split at h
          · simp at h
          · simp only [Prod.mk.injEq, and_true] at h
            simp [h.2]

theorem xtoi_digits (s : List Char) (m j : Nat) (h : net.xtoi s = (m, j, true)) :
    ∀ c ∈ s.take j, isHex c = true := by
  have := (xtoiLoop_digits s 0 0 m j h).2
  simpa using this

theorem isDec_v4Char {c : Char} (h : isDec c = true) : v4Char c = true := by
  simp [v4Char, h]

theorem isDec_isHex {c : Char} (h : isDec c = true) : isHex c = true := by
  simp only [isDec] at h
  simp [isHex, h]

theorem v4Char_ipChar {c : Char} (h : v4Char c = true) : ipChar c = true := by
  simp only [v4Char, Bool.or_eq_true] at h
  rcases h with h | h
  · simp [ipChar, isDec_isHex h]
  · simp [ipChar, h]

theorem isHex_ipChar {c : Char} (h : isHex c = true) : ipChar c = true := by
  simp [ipChar, h]

/-- What `parseIPv4Loop` has read consists of digits and dots. -/
theorem parseIPv4Loop_chars : ∀ (k i : Nat) (s : List Char) (p : List Nat) (rest : List Char),
    net.parseIPv4Loop k i s = some (p, rest) →
    p.length = k ∧ ∃ pre, s = pre ++ rest ∧ ∀ c ∈ pre, v4Char c = true := by
  intro k
  induction k with
  | zero =>
    intro i s p rest h
    simp only [net.parseIPv4Loop, Option.some.injEq, Prod.mk.injEq] at h
    exact ⟨by simp [← h.1], [], by simp [h.2], by simp⟩
  | succ k ih =>
    intro i s p rest h
    have key : ∀ s1 : List Char,
        (if (!(net.dtoi s1).2.2 || decide ((net.dtoi s1).1 > 255)) = true then none
          else if (net.dtoi s1).2.1 > 1 ∧ s1.head? = some '0' then none
          else
            match net.parseIPv4Loop k (i + 1) (List.drop (net.dtoi s1).2.1 s1) with
            | none => none
            | some (p, rest) => some ((net.dtoi s1).1 :: p, rest)) = some (p, rest) →
        p.length = k + 1 ∧ ∃ pre, s1 = pre ++ rest ∧ ∀ c ∈ pre, v4Char c = true := by
      intro s1 h
      split at h
      · simp at h
      · rename_i hok
        split at h
        · simp at h
        · split at h
          · simp at h
          · rename_i p1 rest1 hrec
            simp only [Option.some.injEq, Prod.mk.injEq] at h
            obtain ⟨hp, hrest⟩ := h
            subst hp hrest
            obtain ⟨hl, pre1, hpre1, hall⟩ := ih _ _ _ _ hrec
            have hok2 : (net.dtoi s1).2.2 = true := by
              cases hb : (net.dtoi s1).2.2 <;> simp_all
            have hd : net.dtoi s1 = ((net.dtoi s1).1, (net.dtoi s1).2.1, true) := by
              rw [← hok2]
            have hdig := dtoi_digits _ _ _ hd
            refine ⟨by simp [hl], s1.take (net.dtoi s1).2.1 ++ pre1, ?_, ?_⟩
            · rw [List.append_assoc, ← hpre1, List.take_append_drop]
            · intro x hx
              rcases List.mem_append.mp hx with hx | hx
              · exact isDec_v4Char (hdig x hx)
              · exact hall x hx
    simp only [net.parseIPv4Loop] at h
    split at h
    · simp at h
    · split at h
      · simp at h
      · rename_i hlen hdot
        by_cases hi : i > 0
        · simp only [hi, if_true] at h
          have hs : s = '.' :: s.tail := by
            cases s with
            | nil => simp at hlen
            | cons a as =>
              simp only [hi, true_and, List.head?_cons, ne_eq, Option.some.injEq, not_not] at hdot
              simp [hdot]
          obtain ⟨hl, pre, hpre, hall⟩ := key _ h
          refine ⟨hl, '.' :: pre, ?_, ?_⟩
          · rw [List.cons_append, ← hpre]; exact hs
          · intro x hx
            rcases List.mem_cons.mp hx with rfl | hx
            · simp [v4Char]
            · exact hall x hx
        · simp only [hi, if_false] at h
          exact key _ h

/-- A string `parseIPv4` accepts consists of digits and dots, and the address is
`IPv4 a b c d`. -/
theorem parseIPv4_chars (s : List Char) (h : net.parseIPv4 s ≠ []) :
    (∀ c ∈ s, v4Char c = true) ∧ ∃ a b c d, net.parseIPv4 s = net.IPv4 a b c d := by
  unfold net.parseIPv4 at h ⊢
  split at h
  · rename_i a b c d heq
    obtain ⟨_, pre, hpre, hall⟩ := parseIPv4Loop_chars _ _ _ _ _ heq
    simp only [List.append_nil] at hpre
    subst hpre
    exact ⟨hall, a, b, c, d, by simp [heq]⟩
  · simp at h

theorem eq_cons_tail_of_head? {α : Type} {l : List α} {a : α} (h : l.head? = some a) :
    l = a :: l.tail := by
  cases l with
  | nil => simp at h
  | cons b bs =>
    simp only [List.head?_cons, Option.some.injEq] at h
    simp [h]

/-- What `parseIPv6Loop` has read consists of hexadecimal digits, dots and colons. -/
theorem parseIPv6Loop_chars : ∀ (fuel : Nat) (st st1 : net.V6State),
    net.parseIPv6Loop fuel st = some st1 →
    ∃ pre, st.s = pre ++ st1.s ∧ ∀ c ∈ pre, ipChar c = true := by
  intro fuel
  induction fuel with
  | zero =>
    intro st st1 h
    simp only [net.parseIPv6Loop, Option.some.injEq] at h
    exact ⟨[], by simp [h], by simp⟩
  | succ fuel ih =>
    intro st st1 h
    simp only [net.parseIPv6Loop] at h
    split at h
    · simp only [Option.some.injEq] at h
      exact ⟨[], by simp [h], by simp⟩
    · split at h
      · simp at h
      · rename_i hi hok
        have hok2 : (net.xtoi st.s).2.2 = true := by
          cases hb : (net.xtoi st.s).2.2 <;> simp_all
        have hd : net.xtoi st.s = ((net.xtoi st.s).1, (net.xtoi st.s).2.1, true) := by
          rw [← hok2]
        have hdig := xtoi_digits _ _ _ hd
        have hsplit : st.s = st.s.take (net.xtoi st.s).2.1 ++ st.s.drop (net.xtoi st.s).2.1 :=
          (List.take_append_drop _ _).symm
        generalize (net.xtoi st.s).2.1 = c at h hdig hsplit
        generalize hs1 : st.s.drop c = s1 at h hsplit
        split at h
        · -- trailing IPv4
          split at h
          · simp at h
          · split at h
            · simp at h
            · split at h
              · simp at h
              · rename_i h4
                simp only [Option.some.injEq] at h
                subst h
                refine ⟨st.s, by simp, ?_⟩
                intro x hx
                exact v4Char_ipChar ((parseIPv4_chars _ h4).1 x hx)
        · split at h
          · simp only [Option.some.injEq] at h
            subst h
            exact ⟨st.s.take c, hsplit, fun x hx => isHex_ipChar (hdig x hx)⟩
          · split at h
            · simp at h
            · rename_i hcolon
              simp only [ne_eq, not_or, not_not] at hcolon
              have hs1c : s1 = ':' :: s1.tail := eq_cons_tail_of_head? hcolon.1
              split at h
              · rename_i hcolon2
                have hs2c : s1.tail = ':' :: s1.tail.tail := eq_cons_tail_of_head? hcolon2
                split at h
                · simp at h
                · split at h
                  · simp only [Option.some.injEq] at h
                    subst h
                    refine ⟨st.s.take c ++ [':', ':'], ?_, ?_⟩
                    · simp only [List.append_assoc, List.cons_append, List.nil_append]
                      rw [← hs2c, ← hs1c]; exact hsplit
                    · intro x hx
                      rcases List.mem_append.mp hx with hx | hx
                      · exact isHex_ipChar (hdig x hx)
                      · simp only [List.mem_cons, List.mem_singleton, List.not_mem_nil, or_false, or_self] at hx
                        subst hx; decide
                  · obtain ⟨pre1, hpre1, hall⟩ := ih _ _ h
                    simp only at hpre1
                    refine ⟨st.s.take c ++ ':' :: ':' :: pre1, ?_, ?_⟩
                    · simp only [List.append_assoc, List.cons_append]
                      rw [← hpre1, ← hs2c, ← hs1c]; exact hsplit
                    · intro x hx
                      rcases List.mem_append.mp hx with hx | hx
                      · exact isHex_ipChar (hdig x hx)
                      · rcases List.mem_cons.mp hx with rfl | hx
                        · decide
                        · rcases List.mem_cons.mp hx with rfl | hx
                          · decide
                          · exact hall x hx
              · obtain ⟨pre1, hpre1, hall⟩ := ih _ _ h
                simp only at hpre1
                refine ⟨st.s.take c ++ ':' :: pre1, ?_, ?_⟩
                · simp only [List.append_assoc, List.cons_append]
                  rw [← hpre1, ← hs1c]; exact hsplit
                · intro x hx
                  rcases List.mem_append.mp hx with hx | hx
                  · exact isHex_ipChar (hdig x hx)
                  · rcases List.mem_cons.mp hx with rfl | hx
                    · decide
                    · exact hall x hx

/-- A string `parseIPv6` accepts consists of hexadecimal digits, dots and colons. -/
theorem parseIPv6_chars (s : List Char) (h : net.parseIPv6 s ≠ []) :
    ∀ c ∈ s, ipChar c = true := by
  unfold net.parseIPv6 at h
  simp only at h
  by_cases hlead : s.length ≥ 2 ∧ s.get? 0 = some ':' ∧ s.get? 1 = some ':'
  · obtain ⟨a, b, rest, rfl⟩ : ∃ a b rest, s = a :: b :: rest := by
      match s, hlead.1 with
      | a :: b :: rest, _ => exact ⟨a, b, rest, rfl⟩
    simp only [List.get?_cons_zero, Option.some.injEq, List.get?_cons_succ] at hlead
    obtain ⟨_, rfl, rfl⟩ := hlead
    simp only [List.length_cons, ge_iff_le, Nat.le_add_left, List.get?_cons_zero,
      List.get?_cons_succ, and_self, if_true, List.drop_succ_cons, List.drop_zero, true_and] at h
    split at h
    · rename_i h0
      have : rest = [] := List.length_eq_zero.mp h0
      subst this
      intro c hc
      simp only [List.mem_cons, List.not_mem_nil, or_false, or_self] at hc
      subst hc; decide
    · split at h
      · simp at h
      · rename_i st hloop
        obtain ⟨pre, hpre, hall⟩ := parseIPv6Loop_chars _ _ _ hloop
        simp only at hpre
        split at h
        · simp at h
        · rename_i hlen
          have : st.s = [] := by
            simpa using hlen
          rw [this, List.append_nil] at hpre
          subst hpre
          intro c hc
          rcases List.mem_cons.mp hc with rfl | hc
          · decide
          · rcases List.mem_cons.mp hc with rfl | hc
            · decide
            · exact hall c hc
  · simp only [hlead, if_false, false_and] at h
    split at h
    · simp at h
    · rename_i st hloop
      obtain ⟨pre, hpre, hall⟩ := parseIPv6Loop_chars _ _ _ hloop
      simp only at hpre
      split at h
      · simp at h
      · rename_i hlen
        have : st.s = [] := by
          simpa using hlen
        rw [this, List.append_nil] at hpre
        subst hpre
        exact hall

/-- The scan of `ParseIP` ends in one of the two parsers, or in nil. -/
theorem parseIPScan_cases (s t : List Char) :
    net.parseIPScan s t = net.parseIPv4 s ∨ net.parseIPScan s t = net.parseIPv6 s
      ∨ net.parseIPScan s t = [] := by
  induction t with
  | nil => simp [net.parseIPScan]
  | cons c cs ih =>
    simp only [net.parseIPScan]
    split
    · exact Or.inl rfl
    · split
      · exact Or.inr (Or.inl rfl)
      · exact ih

/-- Every character of a string `net.ParseIP` accepts is a hexadecimal digit, a dot
or a colon. -/
theorem ParseIP_chars (s : String) (h : net.ParseIP s ≠ []) :
    ∀ c ∈ s.data, ipChar c = true := by
  unfold net.ParseIP at h
  rcases parseIPScan_cases s.data s.data with h4 | h6 | h0
  · rw [h4] at h
    exact fun c hc => v4Char_ipChar ((parseIPv4_chars _ h).1 c hc)
  · rw [h6] at h
    exact parseIPv6_chars _ h
  · exact absurd h0 h

/-- The loop of `parseIPv6` never runs out of fuel: once `fuel` covers the groups
still to be read, more fuel changes nothing, so the exit at fuel zero is the exit of
the Go loop at `i >= IPv6len`. -/
theorem parseIPv6Loop_fuel : ∀ (fuel : Nat) (st : net.V6State),
    net.IPv6len ≤ st.i + 2 * fuel → ∀ k : Nat,
    net.parseIPv6Loop (fuel + k) st = net.parseIPv6Loop fuel st := by
  intro fuel
  induction fuel with
  | zero =>
    intro st h k
    cases k with
    | zero => rfl
    | succ k =>
      have hi : ¬ st.i < net.IPv6len := by omega
      simp [net.parseIPv6Loop, hi]
  | succ fuel ih =>
    intro st h k
    have ih1 : ∀ (s : List Char) (e : Option Nat) (ip : List Nat),
        net.parseIPv6Loop (fuel + k) { s := s, i := st.i + 2, ellipsis := e, ip := ip }
          = net.parseIPv6Loop fuel { s := s, i := st.i + 2, ellipsis := e, ip := ip } :=
      fun s e ip => ih _ (by simp only; omega) k
    rw [show fuel + 1 + k = (fuel + k) + 1 by omega]
    simp only [net.parseIPv6Loop, ih1]

/-! ## What the parsers return -/

theorem parseIPv4Loop_bytes : ∀ (k i : Nat) (s : List Char) (p : List Nat) (rest : List Char),
    net.parseIPv4Loop k i s = some (p, rest) → ∀ n ∈ p, n < 256 := by
  intro k
  induction k with
  | zero =>
    intro i s p rest h
    simp only [net.parseIPv4Loop, Option.some.injEq, Prod.mk.injEq] at h
    simp [← h.1]
  | succ k ih =>
    intro i s p rest h
    have key : ∀ s1 : List Char,
        (if (!(net.dtoi s1).2.2 || decide ((net.dtoi s1).1 > 255)) = true then none
          else if (net.dtoi s1).2.1 > 1 ∧ s1.head? = some '0' then none
          else
            match net.parseIPv4Loop k (i + 1) (List.drop (net.dtoi s1).2.1 s1) with
            | none => none
            | some (p, rest) => some ((net.dtoi s1).1 :: p, rest)) = some (p, rest) →
        ∀ n ∈ p, n < 256 := by
      intro s1 h
      split at h
      · simp at h
      · rename_i hok
        split at h
        · simp at h
        · split at h
          · simp at h
          · rename_i p1 rest1 hrec
            simp only [Option.some.injEq, Prod.mk.injEq] at h
            obtain ⟨hp, _⟩ := h
            subst hp
            simp only [Bool.or_eq_true, Bool.not_eq_true', decide_eq_true_eq, not_or,
              Bool.not_eq_false, not_lt] at hok
            intro n hn
            rcases List.mem_cons.mp hn with rfl | hn
            · omega
            · exact ih _ _ _ _ hrec n hn
    simp only [net.parseIPv4Loop] at h
    split at h
    · simp at h
    · split at h
      · simp at h
      · by_cases hi : i > 0
        · simp only [hi, if_true] at h
          exact key _ h
        · simp only [hi, if_false] at h
          exact key _ h

/-- The length and the bytes of an address, as `wellFormedIP` asks for 16 bytes. -/
theorem wellFormedIP_sixteen {ip : List Nat} (hlen : ip.length = 16) (hb : ∀ b ∈ ip, b < 256) :
    wellFormedIP ip = true := by
  simp only [wellFormedIP, Bool.and_eq_true, Bool.or_eq_true, beq_iff_eq, List.all_eq_true,
    decide_eq_true_eq]
  exact ⟨Or.inr hlen, hb⟩

theorem parseIPv4_bytes (s : List Char) (h : net.parseIPv4 s ≠ []) :
    (net.parseIPv4 s).length = 16 ∧ ∀ b ∈ net.parseIPv4 s, b < 256 := by
  unfold net.parseIPv4 at h ⊢
  split at h
  · rename_i a b c d heq
    have hb := parseIPv4Loop_bytes _ _ _ _ _ heq
    simp only [heq, net.IPv4, net.v4InV6Prefix]
    refine ⟨by simp, ?_⟩
    intro x hx
    simp only [List.cons_append, List.nil_append, List.mem_cons, List.mem_singleton,
      List.not_mem_nil, or_false] at hx
    rcases hx with rfl | rfl | rfl | rfl | rfl | rfl | rfl | rfl | rfl | rfl | rfl | rfl
      | rfl | rfl | rfl | rfl
    all_goals first
      | omega
      | exact hb _ (by simp)
  · simp at h

theorem set_bytes {ip : List Nat} (h : ip.length = 16 ∧ ∀ b ∈ ip, b < 256) (i v : Nat)
    (hv : v < 256) : (ip.set i v).length = 16 ∧ ∀ b ∈ ip.set i v, b < 256 := by
  refine ⟨by simp [h.1], ?_⟩
  intro b hb
  rcases List.mem_or_eq_of_mem_set hb with hb | rfl
  · exact h.2 b hb
  · exact hv

theorem getD_bytes {ip : List Nat} (h : ∀ b ∈ ip, b < 256) (i : Nat) : ip.getD i 0 < 256 := by
  rw [List.getD_eq_getElem?_getD]
  cases hi : ip[i]? with
  | none => simp
  | some v =>
    simp only [Option.getD_some]
    exact h v (List.getElem?_mem hi)

/-- The loop of `parseIPv6` keeps the address 16 bytes long, each byte below 256. -/
theorem parseIPv6Loop_bytes : ∀ (fuel : Nat) (st st1 : net.V6State),
    net.parseIPv6Loop fuel st = some st1 →
    (st.ip.length = 16 ∧ ∀ b ∈ st.ip, b < 256) →
    st1.ip.length = 16 ∧ ∀ b ∈ st1.ip, b < 256 := by
  intro fuel
  induction fuel with
  | zero =>
    intro st st1 h hinv
    simp only [net.parseIPv6Loop, Option.some.injEq] at h
    subst h; exact hinv
  | succ fuel ih =>
    intro st st1 h hinv
    simp only [net.parseIPv6Loop] at h
    split at h
    · simp only [Option.some.injEq] at h
      subst h; exact hinv
    · split at h
      · simp at h
      · rename_i hi hok
        simp only [Bool.or_eq_true, Bool.not_eq_true', decide_eq_true_eq, not_or,
          Bool.not_eq_false, not_lt] at hok
        have hn : (net.xtoi st.s).1 ≤ 65535 := hok.2
        have hhi : (net.xtoi st.s).1 >>> 8 < 256 := by
          rw [Nat.shiftRight_eq_div_pow]
          omega
        have hlo : (net.xtoi st.s).1 % 256 < 256 := Nat.mod_lt _ (by omega)
        have hchunk := set_bytes (set_bytes hinv st.i _ hhi) (st.i + 1) _ hlo
        split at h
        · split at h
          · simp at h
          · split at h
            · simp at h
            · split at h
              · simp at h
              · rename_i h4
                simp only [Option.some.injEq] at h
                subst h
                have hb4 := (parseIPv4_bytes _ h4).2
                exact set_bytes (set_bytes (set_bytes (set_bytes hinv _ _ (getD_bytes hb4 12)) _ _
                  (getD_bytes hb4 13)) _ _ (getD_bytes hb4 14)) _ _ (getD_bytes hb4 15)
        · split at h
          · simp only [Option.some.injEq] at h
            subst h; exact hchunk
          · split at h
            · simp at h
            · split at h
              · split at h
                · simp at h
                · split at h
                  · simp only [Option.some.injEq] at h
                    subst h; exact hchunk
                  · exact ih _ _ h hchunk
              · exact ih _ _ h hchunk

theorem foldl_bytes {β : Type} (f : List Nat → β → List Nat)
    (hf : ∀ acc x, (acc.length = 16 ∧ ∀ b ∈ acc, b < 256) →
      (f acc x).length = 16 ∧ ∀ b ∈ f acc x, b < 256) :
    ∀ (l : List β) (ip : List Nat), (ip.length = 16 ∧ ∀ b ∈ ip, b < 256) →
      (l.foldl f ip).length = 16 ∧ ∀ b ∈ l.foldl f ip, b < 256 := by
  intro l
  induction l with
  | nil => intro ip h; exact h
  | cons x xs ih => intro ip h; exact ih _ (hf ip x h)

theorem expandEllipsis_bytes (ip : List Nat) (i e : Nat)
    (h : ip.length = 16 ∧ ∀ b ∈ ip, b < 256) :
    (net.expandEllipsis ip i e).length = 16 ∧ ∀ b ∈ net.expandEllipsis ip i e, b < 256 := by
  unfold net.expandEllipsis
  simp only
  apply foldl_bytes
  · intro acc k hacc
    exact set_bytes hacc _ _ (by omega)
  · apply foldl_bytes
    · intro acc k hacc
      exact set_bytes hacc _ _ (getD_bytes hacc.2 _)
    · exact h

theorem parseIPv6_bytes (s : List Char) (h : net.parseIPv6 s ≠ []) :
    (net.parseIPv6 s).length = 16 ∧ ∀ b ∈ net.parseIPv6 s, b < 256 := by
  have hzero : (List.replicate net.IPv6len 0).length = 16
      ∧ ∀ b ∈ List.replicate net.IPv6len 0, b < 256 := by
    refine ⟨by simp [net.IPv6len], ?_⟩
    intro b hb
    rw [List.eq_of_mem_replicate hb]; omega
  have fin : ∀ (r : List Nat) (st0 : net.V6State), st0.ip = List.replicate net.IPv6len 0 →
      (match net.parseIPv6Loop 8 st0 with
        | none => []
        | some st =>
          if st.s.length ≠ 0 then []
          else if st.i < net.IPv6len then
            match st.ellipsis with
            | none => []
            | some e => net.expandEllipsis st.ip st.i e
          else if st.ellipsis.isSome then []
          else st.ip) = r →
      r ≠ [] → r.length = 16 ∧ ∀ b ∈ r, b < 256 := by
    intro r st0 h0 hr hne
    split at hr
    · exact absurd hr.symm hne
    · rename_i st hloop
      have hst := parseIPv6Loop_bytes _ _ _ hloop (by rw [h0]; exact hzero)
      split at hr
      · exact absurd hr.symm hne
      · split at hr
        · split at hr
          · exact absurd hr.symm hne
          · subst hr; exact expandEllipsis_bytes _ _ _ hst
        · split at hr
          · exact absurd hr.symm hne
          · subst hr; exact hst
  have key : ∀ r : List Nat, net.parseIPv6 s = r → r ≠ [] →
      r.length = 16 ∧ ∀ b ∈ r, b < 256 := by
    intro r hr hne
    unfold net.parseIPv6 at hr
    simp only at hr
    by_cases hlead : s.length ≥ 2 ∧ s.get? 0 = some ':' ∧ s.get? 1 = some ':'
    · simp only [hlead, and_self, if_true, true_and] at hr
      split at hr
      · subst hr; exact hzero
      · exact fin r _ rfl hr hne
    · simp only [hlead, if_false, false_and] at hr
      exact fin r _ rfl hr hne
  exact key _ rfl h

/-- What `net.ParseIP` returns for a string it accepts is 16 bytes long, each byte
below 256. -/
theorem ParseIP_wellFormed (s : String) (h : net.ParseIP s ≠ []) :
    wellFormedIP (net.ParseIP s) = true := by
  unfold net.ParseIP at h ⊢
  rcases parseIPScan_cases s.data s.data with h4 | h6 | h0
  · rw [h4] at h ⊢
    exact wellFormedIP_sixteen (parseIPv4_bytes _ h).1 (parseIPv4_bytes _ h).2
  · rw [h6] at h ⊢
    exact wellFormedIP_sixteen (parseIPv6_bytes _ h).1 (parseIPv6_bytes _ h).2
  · exact absurd h0 h

/-! ## The normalizer `getValidIP` -/

theorem parseIPScan_dot_first (s s1 u : List Char) : ∀ t : List Char, ':' ∉ t →
    net.parseIPScan s t ≠ [] → net.parseIPScan s1 (t ++ u) = net.parseIPv4 s1 := by
  intro t
  induction t with
  | nil => intro _ h; simp [net.parseIPScan] at h
  | cons c cs ih =>
    intro hc h
    have hc1 : c ≠ ':' := fun e => hc (by simp [e])
    have hc2 : ':' ∉ cs := fun e => hc (by simp [e])
    simp only [net.parseIPScan, List.cons_append] at h ⊢
    by_cases hdot : c = '.'
    · simp [hdot]
    · simp only [hdot, if_false, hc1] at h ⊢
      exact ih hc2 h

theorem ipChar_ne_bracket {c : Char} (h : ipChar c = true) : c ≠ ']' ∧ c ≠ '[' := by
  constructor
  · rintro rfl; revert h; decide
  · rintro rfl; revert h; decide

theorem v4Char_ne_colon {c : Char} (h : v4Char c = true) : c ≠ ':' := by
  rintro rfl; revert h; decide

/-- A string that holds a character foreign to IP literals is rejected by `ParseIP`. -/
theorem ParseIP_eq_nil_of_mem (s : String) (c : Char) (hc : c ∈ s.data) (h : ipChar c = false) :
    net.ParseIP s = [] := by
  by_contra hne
  have := ParseIP_chars s hne c hc
  simp [h] at this

/-- An accepted literal followed by a colon and a port is rejected when the literal
holds no colon. -/
theorem ParseIP_v4_port (a p : String) (ha : net.ParseIP a ≠ []) (hcolon : ':' ∉ a.data) :
    net.ParseIP (a ++ ":" ++ p) = [] := by
  unfold net.ParseIP at ha ⊢
  have hd : (a ++ ":" ++ p).data = a.data ++ (':' :: p.data) := by
    simp [String.data_append]
  rw [hd]
  rw [parseIPScan_dot_first a.data _ _ a.data hcolon ha]
  by_contra hne
  have := (parseIPv4_chars _ hne).1 ':' (by simp)
  revert this; decide

theorem getValidIP_of_valid (a : String) (ha : net.ParseIP a ≠ []) : getValidIP a = a := by
  simp [getValidIP, ha]

theorem getValidIP_v4_port (a p : String) (ha : net.ParseIP a ≠ []) (hcolon : ':' ∉ a.data)
    (hp1 : ':' ∉ p.data) (hp2 : ']' ∉ p.data) : getValidIP (a ++ ":" ++ p) = a := by
  have hnil := ParseIP_v4_port a p ha hcolon
  have hd : (a ++ ":" ++ p).data = a.data ++ (':' :: p.data) := by
    simp [String.data_append]
  have hbr : ']' ∉ a.data := fun h => (ipChar_ne_bracket (ParseIP_chars a ha _ h)).1 rfl
  have hcont : strings.Contains (a ++ ":" ++ p) "]" = false := by
    have := Contains_singleton (a ++ ":" ++ p) ']'
    rw [show String.mk [']'] = "]" from rfl] at this
    rw [this, hd]
    simp [hbr, hp2]
  have hcount : strings.Count (a ++ ":" ++ p) ":" = 1 := by
    have := Count_singleton (a ++ ":" ++ p) ':'
    rw [show String.mk [':'] = ":" from rfl] at this
    rw [this, hd]
    simp [List.count_eq_zero_of_not_mem hcolon, List.count_eq_zero_of_not_mem hp1]
  have hsplit : (strings.Split (a ++ ":" ++ p) ":").getD 0 "" = a := by
    have := Split_singleton_head (a ++ ":" ++ p) ':'
    rw [show String.mk [':'] = ":" from rfl] at this
    rw [this, hd, takeWhile_ne_append ':' a.data p.data hcolon]
  simp only [getValidIP, hnil, if_true, hcont, hcount, hsplit]
  simp

theorem getValidIP_bracket_port (x p : String) (hx : net.ParseIP x ≠ []) :
    getValidIP ("[" ++ x ++ "]:" ++ p) = x := by
  have hd : ("[" ++ x ++ "]:" ++ p).data = ('[' :: x.data) ++ (']' :: ':' :: p.data) := by
    simp [String.data_append]
  have hnil : net.ParseIP ("[" ++ x ++ "]:" ++ p) = [] :=
    ParseIP_eq_nil_of_mem _ '[' (by rw [hd]; simp) (by decide)
  have hbr : ']' ∉ ('[' :: x.data) := by
    intro h
    rcases List.mem_cons.mp h with h | h
    · revert h; decide
    · exact (ipChar_ne_bracket (ParseIP_chars x hx _ h)).1 rfl
  have hcont : strings.Contains ("[" ++ x ++ "]:" ++ p) "]" = true := by
    have := Contains_singleton ("[" ++ x ++ "]:" ++ p) ']'
    rw [show String.mk [']'] = "]" from rfl] at this
    rw [this, hd]
    simp
  have hsplit : (strings.Split ("[" ++ x ++ "]:" ++ p) "]").getD 0 "" = String.mk ('[' :: x.data) := by
    have := Split_singleton_head ("[" ++ x ++ "]:" ++ p) ']'
    rw [show String.mk [']'] = "]" from rfl] at this
    rw [this, hd, takeWhile_ne_append ']' _ _ hbr]
  have htrim : strings.TrimLeft (String.mk ('[' :: x.data)) "[" = x := by
    have hdata : ("[" : String).data = ['['] := rfl
    unfold strings.TrimLeft
    rw [hdata]
    cases hxd : x.data with
    | nil =>
      have : x = String.mk [] := String.ext (by simp [hxd])
      simp [List.dropWhile, this]
    | cons c cs =>
      have hc : c ≠ '[' := (ipChar_ne_bracket (ParseIP_chars x hx c (by simp [hxd]))).2
      have : x = String.mk (c :: cs) := String.ext (by simp [hxd])
      simp [List.dropWhile, hc, this]
  simp only [getValidIP, hnil, if_true, hcont, hsplit, htrim]

/-- Claim C1.  `getValidIP` returns the bare IP for every well-formed input: a string
`net.ParseIP` accepts is returned unchanged; an accepted literal without colon (an
IPv4 literal) followed by `:` and a port holding neither `:` nor `]` gives the
literal; an accepted literal (an IPv6 literal in particular) in brackets followed by
`:` and any port gives the literal; so `8.8.8.8:2000` gives `8.8.8.8` and
`[2001:4860:4860::8888]:3000` gives `2001:4860:4860::8888`. -/
theorem C1_getValidIP_returns_bare_ip :
    (∀ a : String, net.ParseIP a ≠ [] → getValidIP a = a)
    ∧ (∀ a p : String, net.ParseIP a ≠ [] → ':' ∉ a.data → ':' ∉ p.data → ']' ∉ p.data →
        getValidIP (a ++ ":" ++ p) = a)
    ∧ (∀ x p : String, net.ParseIP x ≠ [] → getValidIP ("[" ++ x ++ "]:" ++ p) = x)
    ∧ getValidIP "8.8.8.8:2000" = "8.8.8.8"
    ∧ getValidIP "[2001:4860:4860::8888]:3000" = "2001:4860:4860::8888" :=
  ⟨getValidIP_of_valid, getValidIP_v4_port, getValidIP_bracket_port, by decide, by decide⟩

/-- Instances of C1: the literals `192.168.1.7` and `fe80::1`, bare and with a port. -/
theorem C1_getValidIP_returns_bare_ip_witness :
    getValidIP "192.168.1.7" = "192.168.1.7"
    ∧ getValidIP ("192.168.1.7" ++ ":" ++ "8080") = "192.168.1.7"
    ∧ getValidIP ("[" ++ "fe80::1" ++ "]:" ++ "443") = "fe80::1" :=
  ⟨C1_getValidIP_returns_bare_ip.1 "192.168.1.7" (by decide),
   C1_getValidIP_returns_bare_ip.2.1 "192.168.1.7" "8080" (by decide) (by decide) (by decide)
     (by decide),
   C1_getValidIP_returns_bare_ip.2.2.1 "fe80::1" "443" (by decide)⟩

/-! ## The classifier `isPrivateIP` -/

/-- The table `init` builds: all eight literals parse. -/
theorem privateIPBlocks_eq :
    privateIPBlocks =
      [ some { IP := [127, 0, 0, 0], Mask := [255, 0, 0, 0] },
        some { IP := [10, 0, 0, 0], Mask := [255, 0, 0, 0] },
        some { IP := [172, 16, 0, 0], Mask := [255, 240, 0, 0] },
        some { IP := [192, 168, 0, 0], Mask := [255, 255, 0, 0] },
        some { IP := [169, 254, 0, 0], Mask := [255, 255, 0, 0] },
        some { IP := [0, 0, 0, 0, 0, 0, 0, 0, 0, 0, 0, 0, 0, 0, 0, 1],
               Mask := [255, 255, 255, 255, 255, 255, 255, 255, 255, 255, 255, 255, 255, 255, 255, 255] },
        some { IP := [254, 128, 0, 0, 0, 0, 0, 0, 0, 0, 0, 0, 0, 0, 0, 0],
               Mask := [255, 192, 0, 0, 0, 0, 0, 0, 0, 0, 0, 0, 0, 0, 0, 0] },
        some { IP := [252, 0, 0, 0, 0, 0, 0, 0, 0, 0, 0, 0, 0, 0, 0, 0],
               Mask := [254, 0, 0, 0, 0, 0, 0, 0, 0, 0, 0, 0, 0, 0, 0, 0] } ] := by
  decide

theorem isPrivateIPLoop_of_contains (ip : net.IP) (blk : net.IPNet) :
    ∀ blocks : List (Option net.IPNet), (∀ b ∈ blocks, b ≠ none) → some blk ∈ blocks →
      net.Contains blk ip = true → isPrivateIPLoop ip blocks = some true := by
  intro blocks
  induction blocks with
  | nil => intro _ h; simp at h
  | cons b bs ih =>
    intro hall hmem hc
    cases b with
    | none => exact absurd rfl (hall none (by simp))
    | some b0 =>
      simp only [isPrivateIPLoop]
      by_cases hb : net.Contains b0 ip = true
      · simp [hb]
      · simp only [hb, if_false]
        rcases List.mem_cons.mp hmem with h | h
        · simp only [Option.some.injEq] at h
          subst h
          exact absurd hc hb
        · exact ih (fun x hx => hall x (List.mem_cons_of_mem _ hx)) h hc

/-- An address one of the blocks of the table contains is private. -/
theorem isPrivateIP_of_contains (ip : net.IP) (blk : net.IPNet)
    (hmem : some blk ∈ privateIPBlocks) (hc : net.Contains blk ip = true) :
    isPrivateIP ip = some true := by
  unfold isPrivateIP
  split
  · rfl
  · refine isPrivateIPLoop_of_contains ip blk _ ?_ hmem hc
    rw [privateIPBlocks_eq]
    decide

set_option maxRecDepth 100000 in
theorem land_240 : ∀ b < 256, b / 16 = 1 → b &&& 240 = 16 := by decide

set_option maxRecDepth 100000 in
theorem land_192 : ∀ b < 256, b / 64 = 2 → b &&& 192 = 128 := by decide

set_option maxRecDepth 100000 in
theorem land_254 : ∀ b < 256, b / 2 = 126 → b &&& 254 = 252 := by decide

theorem length_four {ip : List Nat} (h : ip.length = 4) : ∃ a b c d, ip = [a, b, c, d] := by
  match ip, h with
  | [a, b, c, d], _ => exact ⟨a, b, c, d, rfl⟩

theorem length_sixteen {ip : List Nat} (h : ip.length = 16) :
    ∃ x0 x1 x2 x3 x4 x5 x6 x7 x8 x9 xa xb xc xd xe xf,
      ip = [x0, x1, x2, x3, x4, x5, x6, x7, x8, x9, xa, xb, xc, xd, xe, xf] := by
  match ip, h with
  | [x0, x1, x2, x3, x4, x5, x6, x7, x8, x9, xa, xb, xc, xd, xe, xf], _ =>
    exact ⟨x0, x1, x2, x3, x4, x5, x6, x7, x8, x9, xa, xb, xc, xd, xe, xf, rfl⟩

/-- The IPv4 address a.b.c.d of one of the five IPv4 blocks, in numbers. -/
theorem specBlocksV4_cases (a b c d : Nat) (ha : a < 256) (hb : b < 256) (hc : c < 256)
    (hd : d < 256)
    (h : specBlocksV4.any (fun blk => inBlock 32 blk.1 blk.2 (addrValue [a, b, c, d])) = true) :
    a = 127 ∨ a = 10 ∨ (a = 172 ∧ b / 16 = 1) ∨ (a = 192 ∧ b = 168) ∨ (a = 169 ∧ b = 254) := by
  simp only [specBlocksV4, addrValue, inBlock, List.any_cons, List.any_nil, List.foldl_cons,
    List.foldl_nil, Bool.or_false, Bool.or_eq_true, beq_iff_eq] at h
  norm_num at h
  omega

theorem To4_four (a b c d : Nat) : net.To4 [a, b, c, d] = [a, b, c, d] := by
  simp [net.To4, net.IPv4len]

theorem To4_mapped (a b c d : Nat) :
    net.To4 (net.v4InV6Prefix ++ [a, b, c, d]) = [a, b, c, d] := by
  simp [net.To4, net.IPv4len, net.IPv6len, net.v4InV6Prefix, net.isZeros]

/-- The method `Contains` looks at an IPv4 address in 16-byte form through its 4-byte form. -/
theorem Contains_mapped (blk : net.IPNet) (a b c d : Nat) :
    net.Contains blk (net.v4InV6Prefix ++ [a, b, c, d]) = net.Contains blk [a, b, c, d] := by
  simp [net.Contains, To4_mapped, To4_four]

theorem Contains_v4 (n0 n1 n2 n3 m0 m1 m2 m3 a b c d : Nat) :
    net.Contains { IP := [n0, n1, n2, n3], Mask := [m0, m1, m2, m3] } [a, b, c, d]
      = (n0 &&& m0 == a &&& m0 && (n1 &&& m1 == b &&& m1 && (n2 &&& m2 == c &&& m2
          && n3 &&& m3 == d &&& m3))) := by
  simp [net.Contains, net.networkNumberAndMask, To4_four, net.IPv4len, net.IPv6len,
    List.range_succ, List.all_cons, Bool.and_assoc]

/-- An IPv4 address of one of the five IPv4 blocks is private. -/
theorem isPrivateIP_v4 (a b c d : Nat) (hb : b < 256)
    (h : a = 127 ∨ a = 10 ∨ (a = 172 ∧ b / 16 = 1) ∨ (a = 192 ∧ b = 168) ∨ (a = 169 ∧ b = 254)) :
    ∃ blk, some blk ∈ privateIPBlocks ∧ net.Contains blk [a, b, c, d] = true := by
  rw [privateIPBlocks_eq]
  rcases h with rfl | rfl | ⟨rfl, h⟩ | ⟨rfl, rfl⟩ | ⟨rfl, rfl⟩
  · exact ⟨{ IP := [127, 0, 0, 0], Mask := [255, 0, 0, 0] }, by simp, by simp [Contains_v4]⟩
  · exact ⟨{ IP := [10, 0, 0, 0], Mask := [255, 0, 0, 0] }, by simp, by simp [Contains_v4]⟩
  · exact ⟨{ IP := [172, 16, 0, 0], Mask := [255, 240, 0, 0] }, by simp,
      by simp [Contains_v4, land_240 b hb h, show (16 &&& 240 : Nat) = 16 from rfl]⟩
  · exact ⟨{ IP := [192, 168, 0, 0], Mask := [255, 255, 0, 0] }, by simp, by simp [Contains_v4]⟩
  · exact ⟨{ IP := [169, 254, 0, 0], Mask := [255, 255, 0, 0] }, by simp, by simp [Contains_v4]⟩

theorem low_bytes_bound (x2 x3 x4 x5 x6 x7 x8 x9 xa xb xc xd xe xf : Nat)
    (h2 : x2 < 256) (h3 : x3 < 256) (h4 : x4 < 256) (h5 : x5 < 256) (h6 : x6 < 256)
    (h7 : x7 < 256) (h8 : x8 < 256) (h9 : x9 < 256) (ha : xa < 256) (hb : xb < 256)
    (hc : xc < 256) (hd : xd < 256) (he : xe < 256) (hf : xf < 256) :
    addrValue [x2, x3, x4, x5, x6, x7, x8, x9, xa, xb, xc, xd, xe, xf] < 2 ^ 112 := by
  simp only [addrValue, List.foldl_cons, List.foldl_nil]
  omega

theorem addrValue_split (x0 x1 : Nat) (rest : List Nat) :
    addrValue (x0 :: x1 :: rest) = (x0 * 256 + x1) * 2 ^ (8 * rest.length) + addrValue rest := by
  have key : ∀ (l : List Nat) (acc : Nat),
      l.foldl (fun acc b => acc * 256 + b) acc
        = acc * 2 ^ (8 * l.length) + l.foldl (fun acc b => acc * 256 + b) 0 := by
    intro l
    induction l with
    | nil => intro acc; simp
    | cons b bs ih =>
      intro acc
      simp only [List.foldl_cons, List.length_cons]
      rw [ih (acc * 256 + b), ih (0 * 256 + b)]
      have : (2:Nat) ^ (8 * (bs.length + 1)) = 256 * 2 ^ (8 * bs.length) := by
        rw [Nat.mul_add, Nat.pow_add]; ring
      rw [this]; ring
  simp only [addrValue, List.foldl_cons]
  rw [key rest]
  ring

/-- The 16-byte address of one of the three IPv6 blocks, in numbers. -/
theorem specBlocksV6_cases (x0 x1 x2 x3 x4 x5 x6 x7 x8 x9 xa xb xc xd xe xf : Nat)
    (hall : ∀ b ∈ [x0, x1, x2, x3, x4, x5, x6, x7, x8, x9, xa, xb, xc, xd, xe, xf], b < 256)
    (h : specBlocksV6.any (fun blk => inBlock 128 blk.1 blk.2
      (addrValue [x0, x1, x2, x3, x4, x5, x6, x7, x8, x9, xa, xb, xc, xd, xe, xf])) = true) :
    [x0, x1, x2, x3, x4, x5, x6, x7, x8, x9, xa, xb, xc, xd, xe, xf] = net.IPv6loopback
      ∨ (x0 = 254 ∧ x1 / 64 = 2) ∨ x0 / 2 = 126 := by
  simp only [List.mem_cons, List.mem_singleton, List.not_mem_nil, or_false, forall_eq_or_imp,
    forall_eq] at hall
  obtain ⟨h0, h1, h2, h3, h4, h5, h6, h7, h8, h9, ha, hb, hc, hd, he, hf⟩ := hall
  have hlow := low_bytes_bound x2 x3 x4 x5 x6 x7 x8 x9 xa xb xc xd xe xf
    h2 h3 h4 h5 h6 h7 h8 h9 ha hb hc hd he hf
  have hsplit := addrValue_split x0 x1 [x2, x3, x4, x5, x6, x7, x8, x9, xa, xb, xc, xd, xe, xf]
  simp only [specBlocksV6, inBlock, List.any_cons, List.any_nil, Bool.or_false, Bool.or_eq_true,
    beq_iff_eq] at h
  rw [hsplit] at h
  have e1 : addrValue [0, 0, 0, 0, 0, 0, 0, 0, 0, 0, 0, 0, 0, 0, 0, 1] = 1 := by decide
  have e2 : addrValue [0xfe, 0x80, 0, 0, 0, 0, 0, 0, 0, 0, 0, 0, 0, 0, 0, 0] = 1018 * 2 ^ 118 := by
    decide
  have e3 : addrValue [0xfc, 0, 0, 0, 0, 0, 0, 0, 0, 0, 0, 0, 0, 0, 0, 0] = 126 * 2 ^ 121 := by
    decide
  rw [e1, e2, e3] at h
  generalize hL : addrValue [x2, x3, x4, x5, x6, x7, x8, x9, xa, xb, xc, xd, xe, xf] = L at h hlow
  norm_num at h hlow
  rcases h with h | h | h
  · left
    have hx0 : x0 = 0 := by omega
    have hx1 : x1 = 0 := by omega
    have hL1 : L = 1 := by omega
    subst hx0 hx1
    rw [hL1] at hL
    simp only [addrValue, List.foldl_cons, List.foldl_nil] at hL
    simp only [net.IPv6loopback, List.cons.injEq, and_true, true_and]
    omega
  · right; left; omega
  · right; right; omega

theorem Contains_fe80 (x0 x1 x2 x3 x4 x5 x6 x7 x8 x9 xa xb xc xd xe xf : Nat)
    (h0 : x0 = 254) (h1 : x1 &&& 192 = 128) :
    net.Contains { IP := [254, 128, 0, 0, 0, 0, 0, 0, 0, 0, 0, 0, 0, 0, 0, 0],
                   Mask := [255, 192, 0, 0, 0, 0, 0, 0, 0, 0, 0, 0, 0, 0, 0, 0] }
      [x0, x1, x2, x3, x4, x5, x6, x7, x8, x9, xa, xb, xc, xd, xe, xf] = true := by
  subst h0
  simp [net.Contains, net.networkNumberAndMask, net.To4, net.IPv4len, net.IPv6len, net.isZeros,
    List.range_succ, h1, show (128 &&& 192 : Nat) = 128 from rfl]

theorem Contains_fc00 (x0 x1 x2 x3 x4 x5 x6 x7 x8 x9 xa xb xc xd xe xf : Nat)
    (h0 : x0 &&& 254 = 252) :
    net.Contains { IP := [252, 0, 0, 0, 0, 0, 0, 0, 0, 0, 0, 0, 0, 0, 0, 0],
                   Mask := [254, 0, 0, 0, 0, 0, 0, 0, 0, 0, 0, 0, 0, 0, 0, 0] }
      [x0, x1, x2, x3, x4, x5, x6, x7, x8, x9, xa, xb, xc, xd, xe, xf] = true := by
  have hx : x0 ≠ 0 := by
    rintro rfl; simp at h0
  simp [net.Contains, net.networkNumberAndMask, net.To4, net.IPv4len, net.IPv6len, net.isZeros,
    List.range_succ, h0, hx, show (252 &&& 254 : Nat) = 252 from rfl]

/-- A 16-byte address of one of the three IPv6 blocks is private. -/
theorem isPrivateIP_v6 (x0 x1 x2 x3 x4 x5 x6 x7 x8 x9 xa xb xc xd xe xf : Nat)
    (h0 : x0 < 256) (h1 : x1 < 256)
    (h : [x0, x1, x2, x3, x4, x5, x6, x7, x8, x9, xa, xb, xc, xd, xe, xf] = net.IPv6loopback
      ∨ (x0 = 254 ∧ x1 / 64 = 2) ∨ x0 / 2 = 126) :
    ∃ blk, some blk ∈ privateIPBlocks ∧ net.Contains blk
      [x0, x1, x2, x3, x4, x5, x6, x7, x8, x9, xa, xb, xc, xd, xe, xf] = true := by
  rw [privateIPBlocks_eq]
  rcases h with h | ⟨h, h2⟩ | h
  · rw [h]
    exact ⟨{ IP := [0, 0, 0, 0, 0, 0, 0, 0, 0, 0, 0, 0, 0, 0, 0, 1],
             Mask := [255, 255, 255, 255, 255, 255, 255, 255, 255, 255, 255, 255, 255, 255, 255, 255] },
      by simp, by decide⟩
  · exact ⟨_, by simp, Contains_fe80 _ _ _ _ _ _ _ _ _ _ _ _ _ _ _ _ h (land_192 x1 h1 h2)⟩
  · exact ⟨_, by simp, Contains_fc00 _ _ _ _ _ _ _ _ _ _ _ _ _ _ _ _ (land_254 x0 h0 h)⟩

/-- Claim C3.  `isPrivateIP` returns true for every address that lies in one of the
blocks 127.0.0.0/8, 10.0.0.0/8, 172.16.0.0/12, 192.168.0.0/16, 169.254.0.0/16,
::1/128, fe80::/10, fc00::/7, an IPv4 address being given by its 4 bytes or by its
16-byte form: so for every address `net.ParseIP` returns, and for every address of 4
or 16 bytes; and it returns false for the public address 8.8.8.8 in both forms. -/
theorem C3_isPrivateIP_private_blocks :
    (∀ s : String, net.ParseIP s ≠ [] → liesInPrivateBlock (net.ParseIP s) = true →
        isPrivateIP (net.ParseIP s) = some true)
    ∧ (∀ ip : net.IP, wellFormedIP ip = true → liesInPrivateBlock ip = true →
        isPrivateIP ip = some true)
    ∧ isPrivateIP [8, 8, 8, 8] = some false
    ∧ isPrivateIP (net.ParseIP "8.8.8.8") = some false := by
  have main : ∀ ip : net.IP, wellFormedIP ip = true → liesInPrivateBlock ip = true →
      isPrivateIP ip = some true := by
    intro ip hwf hin
    simp only [wellFormedIP, Bool.and_eq_true, Bool.or_eq_true, beq_iff_eq, List.all_eq_true,
      decide_eq_true_eq] at hwf
    obtain ⟨_, hbytes⟩ := hwf
    simp only [liesInPrivateBlock, Bool.or_eq_true, Bool.and_eq_true, beq_iff_eq] at hin
    rcases hin with (⟨hlen, hblk⟩ | ⟨⟨hlen, hpre⟩, hblk⟩) | ⟨hlen, hblk⟩
    · obtain ⟨a, b, c, d, rfl⟩ := length_four hlen
      have hb : b < 256 := hbytes b (by simp)
      obtain ⟨blk, hmem, hc⟩ := isPrivateIP_v4 a b c d hb
        (specBlocksV4_cases a b c d (hbytes a (by simp)) hb (hbytes c (by simp))
          (hbytes d (by simp)) hblk)
      exact isPrivateIP_of_contains _ blk hmem hc
    · obtain ⟨x0, x1, x2, x3, x4, x5, x6, x7, x8, x9, xa, xb, a, b, c, d, rfl⟩ :=
        length_sixteen hlen
      simp only [List.take_succ_cons, List.take_zero, net.v4InV6Prefix, List.cons.injEq,
        and_true] at hpre
      obtain ⟨rfl, rfl, rfl, rfl, rfl, rfl, rfl, rfl, rfl, rfl, rfl, rfl⟩ := hpre
      simp only [List.drop_succ_cons, List.drop_zero] at hblk
      have hb : b < 256 := hbytes b (by simp)
      obtain ⟨blk, hmem, hc⟩ := isPrivateIP_v4 a b c d hb
        (specBlocksV4_cases a b c d (hbytes a (by simp)) hb (hbytes c (by simp))
          (hbytes d (by simp)) hblk)
      refine isPrivateIP_of_contains _ blk hmem ?_
      have := Contains_mapped blk a b c d
      simp only [net.v4InV6Prefix, List.cons_append, List.nil_append] at this
      rw [this]; exact hc
    · obtain ⟨x0, x1, x2, x3, x4, x5, x6, x7, x8, x9, xa, xb, xc, xd, xe, xf, rfl⟩ :=
        length_sixteen hlen
      obtain ⟨blk, hmem, hc⟩ := isPrivateIP_v6 x0 x1 x2 x3 x4 x5 x6 x7 x8 x9 xa xb xc xd xe xf
        (hbytes x0 (by simp)) (hbytes x1 (by simp))
        (specBlocksV6_cases _ _ _ _ _ _ _ _ _ _ _ _ _ _ _ _ hbytes hblk)
      exact isPrivateIP_of_contains _ blk hmem hc
  exact ⟨fun s hs => main _ (ParseIP_wellFormed s hs), main, by decide, by decide⟩

/-- Instances of C3: 192.168.0.10 and fd12:3456::1 as parsed, 172.31.255.1 in 4 bytes. -/
theorem C3_isPrivateIP_private_blocks_witness :
    isPrivateIP (net.ParseIP "192.168.0.10") = some true
    ∧ isPrivateIP (net.ParseIP "fd12:3456::1") = some true
    ∧ isPrivateIP [172, 31, 255, 1] = some true :=
  ⟨C3_isPrivateIP_private_blocks.1 "192.168.0.10" (by decide) (by decide),
   C3_isPrivateIP_private_blocks.1 "fd12:3456::1" (by decide) (by decide),
   C3_isPrivateIP_private_blocks.2.1 [172, 31, 255, 1] (by decide) (by decide)⟩

/-! ## The renderer `generateResponse` -/

theorem htmlReplacer_append (s t : List Char) :
    template.htmlReplacer (s ++ t) = template.htmlReplacer s ++ template.htmlReplacer t := by
  induction s with
  | nil => simp [template.htmlReplacer]
  | cons c cs ih =>
    simp only [List.cons_append, template.htmlReplacer]
    split
    · simp [ih]
    · simp [ih]

theorem htmlReplacementTable_of_not_special (c : Char) (h : htmlSpecial c = false) :
    template.htmlReplacementTable c.toNat = "" := by
  simp only [htmlSpecial, Bool.or_eq_false_iff, beq_eq_false_iff_ne, ne_eq] at h
  obtain ⟨⟨⟨⟨⟨⟨h0, h1⟩, h2⟩, h3⟩, h4⟩, h5⟩, h6⟩ := h
  simp [template.htmlReplacementTable, h0, h1, h2, h3, h4, h5, h6]

/-- The escaper leaves a text without special characters as it is. -/
theorem htmlReplacer_of_not_special (s : List Char) (h : ∀ c ∈ s, htmlSpecial c = false) :
    template.htmlReplacer s = s := by
  induction s with
  | nil => simp [template.htmlReplacer]
  | cons c cs ih =>
    have hc := htmlReplacementTable_of_not_special c (h c (by simp))
    have hcs := ih (fun x hx => h x (List.mem_cons_of_mem _ hx))
    simp [template.htmlReplacer, hc, hcs]

theorem htmlEscaper_of_not_special (s : String) (h : ∀ c ∈ s.data, htmlSpecial c = false) :
    template.htmlEscaper s = s := by
  simp [template.htmlEscaper, htmlReplacer_of_not_special s.data h]

/-- The escaper works on a labelled item through the text after the label. -/
theorem htmlEscaper_label (label s : String) (h : ∀ c ∈ label.data, htmlSpecial c = false) :
    template.htmlEscaper (label ++ s) = label ++ template.htmlEscaper s := by
  apply String.ext
  simp [template.htmlEscaper, String.data_append, htmlReplacer_append,
    htmlReplacer_of_not_special label.data h]

/-- What `generateResponse` returns: the three fields, each escaped. -/
theorem generateResponse_eq (ip timezone location : String) :
    generateResponse ip timezone location =
      "<html><head><title></title></head><body><div>Current IP Address: "
        ++ template.htmlEscaper ip ++ "</div><div>Time Zone: " ++ template.htmlEscaper timezone
        ++ "</div><div>Location: " ++ template.htmlEscaper location ++ "</div></body></html>" := by
  have h1 := htmlEscaper_label "Current IP Address: " ip (by decide)
  have h2 := htmlEscaper_label "Time Zone: " timezone (by decide)
  have h3 := htmlEscaper_label "Location: " location (by decide)
  simp only [generateResponse, template.executeResHtml, h1, h2, h3, List.map_cons, List.map_nil,
    String.join, List.foldl_cons, List.foldl_nil]
  apply String.ext
  simp [String.data_append]

set_option maxRecDepth 100000 in
/-- Claim C4, refuted as stated.  For the location `Coeur d'Alene, ID, USA` the text
returned is not the plain concatenation: the single quote comes out as `&#39;`. -/
theorem C4_generateResponse_escapes :
    generateResponse "8.8.2.8" "America/Los_Angeles" "Coeur d'Alene, ID, USA"
        ≠ "<html><head><title></title></head><body><div>Current IP Address: " ++ "8.8.2.8"
            ++ "</div><div>Time Zone: " ++ "America/Los_Angeles" ++ "</div><div>Location: "
            ++ "Coeur d'Alene, ID, USA" ++ "</div></body></html>"
    ∧ generateResponse "8.8.2.8" "America/Los_Angeles" "Coeur d'Alene, ID, USA"
        = "<html><head><title></title></head><body><div>Current IP Address: 8.8.2.8</div><div>Time Zone: America/Los_Angeles</div><div>Location: Coeur d&#39;Alene, ID, USA</div></body></html>" := by
  constructor
  · decide
  · decide

/-- Claim C4, amended.  For every ip, timezone and location string, `generateResponse`
returns the fixed text around the three fields, each passed through the escaper of
`html/template`; when none of the three strings holds one of the characters NUL,
double quote, `&`, single quote, `+`, `<`, `>`, that is exactly the text
`<html><head><title></title></head><body><div>Current IP Address: ` + ip +
`</div><div>Time Zone: ` + timezone + `</div><div>Location: ` + location +
`</div></body></html>`. -/
theorem C4_generateResponse_text (ip timezone location : String) :
    generateResponse ip timezone location =
      "<html><head><title></title></head><body><div>Current IP Address: "
        ++ template.htmlEscaper ip ++ "</div><div>Time Zone: " ++ template.htmlEscaper timezone
        ++ "</div><div>Location: " ++ template.htmlEscaper location ++ "</div></body></html>"
    ∧ ((∀ c ∈ ip.data ++ timezone.data ++ location.data, htmlSpecial c = false) →
        generateResponse ip timezone location =
          "<html><head><title></title></head><body><div>Current IP Address: " ++ ip
            ++ "</div><div>Time Zone: " ++ timezone ++ "</div><div>Location: " ++ location
            ++ "</div></body></html>") := by
  refine ⟨generateResponse_eq ip timezone location, fun h => ?_⟩
  rw [generateResponse_eq,
    htmlEscaper_of_not_special ip (fun c hc => h c (by simp [hc])),
    htmlEscaper_of_not_special timezone (fun c hc => h c (by simp [hc])),
    htmlEscaper_of_not_special location (fun c hc => h c (by simp [hc]))]

/-- The instance of C4 that the test `TestGenerateResponse` checks. -/
theorem C4_generateResponse_text_witness :
    generateResponse "8.8.2.8" "America/New_York" "Newark, NJ, USA" =
      "<html><head><title></title></head><body><div>Current IP Address: " ++ "8.8.2.8"
        ++ "</div><div>Time Zone: " ++ "America/New_York" ++ "</div><div>Location: "
        ++ "Newark, NJ, USA" ++ "</div></body></html>" :=
  (C4_generateResponse_text "8.8.2.8" "America/New_York" "Newark, NJ, USA").2 (by decide)

theorem parseIPv4Loop_head_dot (k i : Nat) (s : List Char) (r : List Nat × List Char)
    (h : net.parseIPv4Loop (k + 1) (i + 1) s = some r) : s.head? = some '.' := by
  simp only [net.parseIPv4Loop] at h
  split at h
  · simp at h
  · split at h
    · simp at h
    · rename_i hdot
      simp only [gt_iff_lt, Nat.zero_lt_succ, ne_eq, true_and, not_not] at hdot
      exact hdot

theorem parseIPv4Loop_dot (k : Nat) (s : List Char) (r : List Nat × List Char)
    (h : net.parseIPv4Loop (k + 2) 0 s = some r) : '.' ∈ s := by
  rw [net.parseIPv4Loop] at h
  split at h
  · simp at h
  · split at h
    · simp at h
    · simp only [gt_iff_lt, Nat.lt_irrefl, if_false] at h
      split at h
      · simp at h
      · split at h
        · simp at h
        · split at h
          · simp at h
          · rename_i p rest hrec
            have hdot := parseIPv4Loop_head_dot _ _ _ _ hrec
            have hmem : '.' ∈ List.drop (net.dtoi s).2.1 s := by
              rw [eq_cons_tail_of_head? hdot]; simp
            exact List.mem_of_mem_drop hmem

theorem parseIPScan_v4 (s : List Char) : ∀ t : List Char, (∀ c ∈ t, v4Char c = true) →
    '.' ∈ t → net.parseIPScan s t = net.parseIPv4 s := by
  intro t
  induction t with
  | nil => intro _ h; simp at h
  | cons c cs ih =>
    intro hall hdot
    simp only [net.parseIPScan]
    by_cases hc : c = '.'
    · simp [hc]
    · have hcolon : c ≠ ':' := v4Char_ne_colon (hall c (by simp))
      simp only [hc, if_false, hcolon]
      refine ih (fun x hx => hall x (List.mem_cons_of_mem _ hx)) ?_
      rcases List.mem_cons.mp hdot with h | h
      · exact absurd h.symm hc
      · exact h

/-- The IPv4 literals: the strings `parseIPv4` accepts are the strings `net.ParseIP`
accepts that hold no colon. -/
theorem parseIPv4_iff (a : String) :
    net.parseIPv4 a.data ≠ [] ↔ (net.ParseIP a ≠ [] ∧ ':' ∉ a.data) := by
  constructor
  · intro h
    have hall := (parseIPv4_chars _ h).1
    have hdot : '.' ∈ a.data := by
      unfold net.parseIPv4 at h
      split at h
      · rename_i heq
        exact parseIPv4Loop_dot 2 _ _ heq
      · simp at h
    refine ⟨?_, fun hmem => v4Char_ne_colon (hall _ hmem) rfl⟩
    unfold net.ParseIP
    rw [parseIPScan_v4 _ _ hall hdot]
    exact h
  · rintro ⟨h, hcolon⟩
    unfold net.ParseIP at h
    have := parseIPScan_dot_first a.data a.data [] a.data hcolon h
    rw [List.append_nil] at this
    rw [← this]; exact h

/-- For an address without special characters the fallback `errHtml` is the text
`generateResponse` returns for the sentinel fields. -/
theorem generateResponse_NA_eq_errHtml (ip : String)
    (h : ∀ c ∈ ip.data, htmlSpecial c = false) :
    generateResponse ip "NA" "NA" = errHtml ip := by
  rw [generateResponse_eq, htmlEscaper_of_not_special ip h,
    show template.htmlEscaper "NA" = "NA" from by decide]
  simp only [errHtml, String.append_assoc]
  have e : "</div><div>Time Zone: " ++ ("NA" ++ ("</div><div>Location: " ++ ("NA" ++ "</div></body></html>")))
      = "</div><div>Time Zone: NA</div><div>Location: NA</div></body></html>" := by decide
  rw [e]

/-! ## The geolocation client `getGeolocation` -/

/-- A text contains what it starts with. -/
theorem Contains_append_left (sub rest : String) : strings.Contains (sub ++ rest) sub = true := by
  have := containsAux_append sub.data [] rest.data
  simpa [strings.Contains, String.data_append] using this

/-- A text contains what stands in its middle. -/
theorem Contains_append_mid (pre sub post : String) :
    strings.Contains (pre ++ sub ++ post) sub = true := by
  have := containsAux_append sub.data pre.data post.data
  simpa [strings.Contains, String.data_append] using this

theorem Contains_label (label sub rest : String) (h : strings.Contains label sub = true) :
    strings.Contains (label ++ rest) sub = true := by
  have key : ∀ s t : List Char, strings.containsAux sub.data s = true →
      strings.containsAux sub.data (s ++ t) = true := by
    intro s
    induction s with
    | nil =>
      intro t h
      simp only [strings.containsAux, List.isEmpty_iff] at h
      cases t with
      | nil => simp [strings.containsAux, h]
      | cons c cs => simp [strings.containsAux, h]
    | cons c cs ih =>
      intro t h
      simp only [strings.containsAux, Bool.or_eq_true, List.cons_append] at h ⊢
      rcases h with h | h
      · left
        rw [List.isPrefixOf_iff_prefix] at h ⊢
        exact h.trans (List.prefix_append (c :: cs) t)
      · right; exact ih t h
  simpa [strings.Contains, String.data_append] using key label.data rest.data h

/-- Whenever `getGeolocation` returns with a non-empty error string, timezone and
location are both `NA`. -/
theorem getGeolocation_error_sentinel (get : String → Reply) (ip : String) (errorInsert : Int)
    (timezone location errStr : String)
    (h : getGeolocation get ip errorInsert = some (timezone, location, errStr))
    (he : errStr ≠ "") : timezone = "NA" ∧ location = "NA" := by
  unfold getGeolocation at h
  simp only at h
  split at h
  · simp only [Option.some.injEq, Prod.mk.injEq] at h
    exact ⟨h.1.symm, h.2.1.symm⟩
  · split at h
    · simp only [Option.some.injEq, Prod.mk.injEq] at h
      exact ⟨h.1.symm, h.2.1.symm⟩
    · split at h
      · simp only [Option.some.injEq, Prod.mk.injEq] at h
        exact ⟨h.1.symm, h.2.1.symm⟩
      · split at h
        · simp only [Option.some.injEq, Prod.mk.injEq] at h
          exact ⟨h.1.symm, h.2.1.symm⟩
        · split at h
          · simp only [Option.some.injEq, Prod.mk.injEq] at h
            exact ⟨h.1.symm, h.2.1.symm⟩
          · split at h
            · simp only [Option.some.injEq, Prod.mk.injEq] at h
              exact ⟨h.1.symm, h.2.1.symm⟩
            · split at h
              · simp only [Option.some.injEq, Prod.mk.injEq] at h
                exact ⟨h.1.symm, h.2.1.symm⟩
              · split at h
                · simp only [Option.some.injEq, Prod.mk.injEq] at h
                  exact absurd h.2.2.symm he
                · simp at h

/-- Claim C5, the failing input.  When the body decodes to an object without `timezone`
(the body `{}`), or with a `timezone` that is not a string, `getGeolocation` called
with the no-fault selector panics in the type assertion, and the handler run ends in
that panic without a response body. -/
theorem C5_getGeolocation_panics_without_timezone :
    getGeolocation (fun _ => Reply.decoded []) "8.8.2.8" HttpNoErr = none
    ∧ getGeolocation (fun _ => Reply.decoded [("timezone", Value.null), ("city", Value.string "Newark")])
        "8.8.2.8" HttpNoErr = none
    ∧ getGeolocation (fun _ => Reply.decoded [("timezone", Value.number "%!s(float64=5)")])
        "8.8.2.8" HttpNoErr = none
    ∧ (handler (fun _ => Reply.decoded [])
        { Host := "localhost", RemoteAddr := "8.8.2.8:40000", Header := [] }).panicked = true
    ∧ (handler (fun _ => Reply.decoded [])
        { Host := "localhost", RemoteAddr := "8.8.2.8:40000", Header := [] }).body = "" := by
  refine ⟨by decide, by decide, by decide, by decide, by decide⟩

/-- Claim C6, refuted as stated.  An object whose `error` key is `false` does not signal
an error, yet the client reports a failure for it. -/
theorem C6_getGeolocation_error_false :
    getGeolocation
        (fun _ => Reply.decoded
          [ ("error", Value.bool false), ("timezone", Value.string "America/New_York"),
            ("city", Value.string "Newark"), ("region_code", Value.string "NJ"),
            ("country_code_iso3", Value.string "USA") ])
        "8.8.2.8" HttpNoErr
      = some ("NA", "NA", "Failed to get geolocation: %!s(<nil>)")
    ∧ getGeolocation
        (fun _ => Reply.decoded
          [ ("error", Value.bool false), ("timezone", Value.string "America/New_York"),
            ("city", Value.string "Newark"), ("region_code", Value.string "NJ"),
            ("country_code_iso3", Value.string "USA") ])
        "8.8.2.8" HttpNoErr
      ≠ some ("America/New_York", "Newark" ++ ", " ++ "NJ" ++ ", " ++ "USA", "") := by
  refine ⟨by decide, by decide⟩

/-- Claim C6, amended.  For every provider response whose body decodes to a JSON object
in which `error` is absent or null and `timezone` is a string, `getGeolocation` called
with the no-fault selector returns an empty error string, the timezone equal to that
string, and the location equal to the `%s` texts of its `city`,
`region_code` and `country_code_iso3` joined by `, `; the `%s` text of a string is
the string. -/
theorem C6_getGeolocation_success (get : String → Reply) (ip : String)
    (bd : List (String × Value)) (tz : String)
    (hreply : get ("http://ipapi.co/" ++ ip ++ "/json") = Reply.decoded bd)
    (herr : index bd "error" = Value.null)
    (htz : index bd "timezone" = Value.string tz) :
    getGeolocation get ip HttpNoErr
      = some (tz,
          sprintS (index bd "city") ++ ", " ++ sprintS (index bd "region_code") ++ ", "
            ++ sprintS (index bd "country_code_iso3"),
          "")
    ∧ ∀ s : String, sprintS (Value.string s) = s := by
  refine ⟨?_, fun s => rfl⟩
  simp [getGeolocation, hreply, herr, htz, HttpNoErr, HttpGetErr, HttpReadAllErr,
    HttpUnmarshalErr, HttpReqErr]

/-- An instance of C6: the reply for 2001:4860:4860::8888 that `TestXForwardedForIPV6`
expects. -/
theorem C6_getGeolocation_success_witness :
    getGeolocation
        (fun _ => Reply.decoded
          [ ("timezone", Value.string "America/Los_Angeles"), ("city", Value.string "Mountain View"),
            ("region_code", Value.string "CA"), ("country_code_iso3", Value.string "USA") ])
        "2001:4860:4860::8888" HttpNoErr
      = some ("America/Los_Angeles", "Mountain View, CA, USA", "") :=
  (C6_getGeolocation_success
    (fun _ => Reply.decoded
      [ ("timezone", Value.string "America/Los_Angeles"), ("city", Value.string "Mountain View"),
        ("region_code", Value.string "CA"), ("country_code_iso3", Value.string "USA") ])
    "2001:4860:4860::8888" _ "America/Los_Angeles" rfl (by decide) (by decide)).1

/-- Claim C7, refuted as stated.  With the body-read selector and an outbound call that
fails in `http.Get`, the error string is that of the transport failure and does not
contain `Failed to read`. -/
theorem C7_injection_after_real_failure :
    getGeolocation (fun _ => Reply.getErr "dial tcp: lookup ipapi.co: no such host")
        "8.8.2.8" HttpReadAllErr
      = some ("NA", "NA", "Failed to call Get: dial tcp: lookup ipapi.co: no such host")
    ∧ strings.Contains "Failed to call Get: dial tcp: lookup ipapi.co: no such host"
        "Failed to read" = false := by
  refine ⟨by decide, by decide⟩

/-- Claim C7, amended.  For every IP string, every outcome of the outbound call and
each of the four fault-injection selectors, `getGeolocation` returns timezone `NA`,
location `NA` and an error string that names the first stage that failed, really or
by injection.  The string contains `Failed to call` for `HttpGetErr`, `Failed to read`
for `HttpReadAllErr` when `http.Get` succeeded, `Failed to unmarshal` for
`HttpUnmarshalErr` when `http.Get` and the read of the body succeeded, and
`Failed to get` for `HttpReqErr` when the body was decoded.  A real failure of an
earlier stage is reported with the phrase of that stage: `Failed to call` whenever
`http.Get` failed, `Failed to read` when the read of the body failed and the selector
is not `HttpGetErr`, `Failed to unmarshal` when the decoding failed and the selector
is neither `HttpGetErr` nor `HttpReadAllErr`.  In every case the error string is the
label of the stage followed by the text of the real error, by `<nil>` for an
injected one, or by the `%s` text of `reason` for the provider stage. -/
theorem C7_getGeolocation_injection (get : String → Reply) (ip : String) (errorInsert : Int)
    (hsel : errorInsert = HttpGetErr ∨ errorInsert = HttpReadAllErr
      ∨ errorInsert = HttpUnmarshalErr ∨ errorInsert = HttpReqErr) :
    fieldsOf (getGeolocation get ip errorInsert) = some ("NA", "NA")
    ∧ (errorInsert = HttpGetErr →
        strings.Contains (errorOf (getGeolocation get ip errorInsert)) "Failed to call" = true)
    ∧ (errorInsert = HttpReadAllErr →
        (get ("http://ipapi.co/" ++ ip ++ "/json")).gotResponse = true →
        strings.Contains (errorOf (getGeolocation get ip errorInsert)) "Failed to read" = true)
    ∧ (errorInsert = HttpUnmarshalErr →
        (get ("http://ipapi.co/" ++ ip ++ "/json")).gotBody = true →
        strings.Contains (errorOf (getGeolocation get ip errorInsert)) "Failed to unmarshal" = true)
    ∧ (errorInsert = HttpReqErr →
        (get ("http://ipapi.co/" ++ ip ++ "/json")).gotObject = true →
        strings.Contains (errorOf (getGeolocation get ip errorInsert)) "Failed to get" = true)
    ∧ ((get ("http://ipapi.co/" ++ ip ++ "/json")).gotResponse = false →
        strings.Contains (errorOf (getGeolocation get ip errorInsert)) "Failed to call" = true)
    ∧ (errorInsert ≠ HttpGetErr →
        (get ("http://ipapi.co/" ++ ip ++ "/json")).gotResponse = true →
        (get ("http://ipapi.co/" ++ ip ++ "/json")).gotBody = false →
        strings.Contains (errorOf (getGeolocation get ip errorInsert)) "Failed to read" = true)
    ∧ (errorInsert ≠ HttpGetErr → errorInsert ≠ HttpReadAllErr →
        (get ("http://ipapi.co/" ++ ip ++ "/json")).gotBody = true →
        (get ("http://ipapi.co/" ++ ip ++ "/json")).gotObject = false →
        strings.Contains (errorOf (getGeolocation get ip errorInsert)) "Failed to unmarshal" = true)
    ∧ (∀ err : String, get ("http://ipapi.co/" ++ ip ++ "/json") = Reply.getErr err →
        errorOf (getGeolocation get ip errorInsert) = "Failed to call Get: " ++ err)
    ∧ (∀ err : String, get ("http://ipapi.co/" ++ ip ++ "/json") = Reply.readErr err →
        errorInsert ≠ HttpGetErr →
        errorOf (getGeolocation get ip errorInsert) = "Failed to read resp body: " ++ err)
    ∧ (∀ err : String, get ("http://ipapi.co/" ++ ip ++ "/json") = Reply.unmarshalErr err →
        errorInsert ≠ HttpGetErr → errorInsert ≠ HttpReadAllErr →
        errorOf (getGeolocation get ip errorInsert) = "Failed to unmarshal: " ++ err)
    ∧ (∀ bd : List (String × Value),
        get ("http://ipapi.co/" ++ ip ++ "/json") = Reply.decoded bd →
        errorInsert = HttpReqErr →
        errorOf (getGeolocation get ip errorInsert)
          = "Failed to get geolocation: " ++ sprintS (index bd "reason"))
    ∧ (errorInsert = HttpGetErr →
        (get ("http://ipapi.co/" ++ ip ++ "/json")).gotResponse = true →
        errorOf (getGeolocation get ip errorInsert) = "Failed to call Get: " ++ "<nil>")
    ∧ (errorInsert = HttpReadAllErr →
        (get ("http://ipapi.co/" ++ ip ++ "/json")).gotBody = true →
        errorOf (getGeolocation get ip errorInsert) = "Failed to read resp body: " ++ "<nil>")
    ∧ (errorInsert = HttpUnmarshalErr →
        (get ("http://ipapi.co/" ++ ip ++ "/json")).gotObject = true →
        errorOf (getGeolocation get ip errorInsert) = "Failed to unmarshal: " ++ "<nil>") := by
  have c1 : ∀ e : String, strings.Contains ("Failed to call Get: " ++ e) "Failed to call" = true :=
    fun e => Contains_label _ _ e (by decide)
  have c2 : ∀ e : String, strings.Contains ("Failed to read resp body: " ++ e) "Failed to read" = true :=
    fun e => Contains_label _ _ e (by decide)
  have c3 : ∀ e : String, strings.Contains ("Failed to unmarshal: " ++ e) "Failed to unmarshal" = true :=
    fun e => Contains_label _ _ e (by decide)
  have c4 : ∀ e : String, strings.Contains ("Failed to get geolocation: " ++ e) "Failed to get" = true :=
    fun e => Contains_label _ _ e (by decide)
  have d1 : strings.Contains "Failed to call Get: <nil>" "Failed to call" = true := by decide
  have d2 : strings.Contains "Failed to read resp body: <nil>" "Failed to read" = true := by decide
  have d3 : strings.Contains "Failed to unmarshal: <nil>" "Failed to unmarshal" = true := by decide
  rcases hsel with h | h | h | h <;> subst h <;>
    cases hr : get ("http://ipapi.co/" ++ ip ++ "/json") <;>
    simp [getGeolocation, hr, HttpGetErr, HttpReadAllErr, HttpUnmarshalErr, HttpReqErr,
      Reply.gotResponse, Reply.gotBody, Reply.gotObject, errorOf, fieldsOf, c1, c2, c3, c4,
      d1, d2, d3]

/-- Instances of C7: two of the calls of `TestGeteGeolocationErrInjection` with the
provider answering, and the same two selectors with a provider that cannot be
reached or whose body cannot be decoded. -/
theorem C7_getGeolocation_injection_witness :
    strings.Contains
        (errorOf (getGeolocation
          (fun _ => Reply.decoded [("timezone", Value.string "America/New_York")])
          "8.8.2.8" HttpReadAllErr))
        "Failed to read" = true
    ∧ strings.Contains
        (errorOf (getGeolocation
          (fun _ => Reply.decoded [("timezone", Value.string "America/New_York")])
          "2001:4860:4860::8888" HttpReqErr))
        "Failed to get" = true
    ∧ strings.Contains
        (errorOf (getGeolocation
          (fun _ => Reply.getErr "dial tcp: lookup ipapi.co: no such host")
          "2001:4860:4860::8888" HttpReqErr))
        "Failed to call" = true
    ∧ errorOf (getGeolocation
          (fun _ => Reply.unmarshalErr "unexpected end of JSON input")
          "8.8.2.8" HttpReqErr)
        = "Failed to unmarshal: " ++ "unexpected end of JSON input" :=
  ⟨(C7_getGeolocation_injection
      (fun _ => Reply.decoded [("timezone", Value.string "America/New_York")]) "8.8.2.8"
      HttpReadAllErr (Or.inr (Or.inl rfl))).2.2.1 rfl rfl,
   (C7_getGeolocation_injection
      (fun _ => Reply.decoded [("timezone", Value.string "America/New_York")])
      "2001:4860:4860::8888" HttpReqErr (Or.inr (Or.inr (Or.inr rfl)))).2.2.2.2.1 rfl rfl,
   (C7_getGeolocation_injection
      (fun _ => Reply.getErr "dial tcp: lookup ipapi.co: no such host")
      "2001:4860:4860::8888" HttpReqErr (Or.inr (Or.inr (Or.inr rfl)))).2.2.2.2.2.1 rfl,
   (C7_getGeolocation_injection
      (fun _ => Reply.unmarshalErr "unexpected end of JSON input")
      "8.8.2.8" HttpReqErr (Or.inr (Or.inr (Or.inr rfl)))).2.2.2.2.2.2.2.2.2.2.1
      "unexpected end of JSON input" rfl (by decide) (by decide)⟩

/-! ## The request handler -/

/-- Claim C2, the failing input.  For `not-an-ip:80` and for `800.8.8.8:2000` the
normalizer strips the port and returns the rest without validating it: a string
that is neither empty nor accepted by `net.ParseIP`. -/
theorem C2_getValidIP_returns_invalid :
    getValidIP "not-an-ip:80" = "not-an-ip"
    ∧ net.ParseIP "not-an-ip" = []
    ∧ getValidIP "800.8.8.8:2000" = "800.8.8.8"
    ∧ net.ParseIP "800.8.8.8" = []
    ∧ getValidIP "[not-an-ip]:80" = "not-an-ip" := by
  refine ⟨by decide, by decide, by decide, by decide, by decide⟩

/-- Claim C8, the failing input.  When the forwarding header arrives as one value holding
a comma-delimited list, the candidate is the whole list, not its first address; the
normalizer rejects it and the response reports no address. -/
theorem C8_forwarded_list_in_one_value :
    candidate { Host := "localhost", RemoteAddr := "127.0.0.1:5000",
                Header := [("X-Forwarded-For",
                  ["2001:4860:4860::8888, 2001:4860:4860::1234, 2001:4860:4860::3456"])] }
      = "2001:4860:4860::8888, 2001:4860:4860::1234, 2001:4860:4860::3456"
    ∧ getValidIP "2001:4860:4860::8888, 2001:4860:4860::1234, 2001:4860:4860::3456" = ""
    ∧ (handler (fun _ => Reply.decoded [])
        { Host := "localhost", RemoteAddr := "127.0.0.1:5000",
          Header := [("X-Forwarded-For",
            ["2001:4860:4860::8888, 2001:4860:4860::1234, 2001:4860:4860::3456"])] }).body
      = "<html><head><title></title></head><body>Invalid IP: </body></html>"
    ∧ candidate { Host := "localhost", RemoteAddr := "127.0.0.1:5000",
                  Header := [("X-Forwarded-For",
                    ["2001:4860:4860::8888", "2001:4860:4860::1234", "2001:4860:4860::3456"])] }
      = "2001:4860:4860::8888" := by
  refine ⟨by decide, by decide, by decide, by decide⟩

/-- Claim C9, the failing input.  For the rejected candidate `800.8.8.8` the body written
is `...Invalid IP: </body></html>`, without the candidate: the variable printed was
overwritten with the empty result of the normalizer. -/
theorem C9_invalid_ip_body_omits_candidate :
    candidate { Host := "localhost", RemoteAddr := "127.0.0.1:5000",
                Header := [("X-Forwarded-For", ["800.8.8.8"])] } = "800.8.8.8"
    ∧ getValidIP "800.8.8.8" = ""
    ∧ (handler (fun _ => Reply.decoded [])
        { Host := "localhost", RemoteAddr := "127.0.0.1:5000",
          Header := [("X-Forwarded-For", ["800.8.8.8"])] }).body
      = "<html><head><title></title></head><body>Invalid IP: </body></html>"
    ∧ (handler (fun _ => Reply.decoded [])
        { Host := "localhost", RemoteAddr := "127.0.0.1:5000",
          Header := [("X-Forwarded-For", ["800.8.8.8"])] }).body
      ≠ "<html><head><title></title></head><body>Invalid IP: " ++ "800.8.8.8" ++ "</body></html>" := by
  refine ⟨by decide, by decide, by decide, by decide⟩

theorem dtoi_127 (rest : List Char) :
    net.dtoi ('1' :: '2' :: '7' :: '.' :: rest) = (127, 3, true) := by
  simp [net.dtoi, net.dtoiLoop, net.big]

/-- A dotted quad that starts with `127.` parses to an address 127.b.c.d. -/
theorem parseIPv4_127 (rest : List Char)
    (h : net.parseIPv4 ('1' :: '2' :: '7' :: '.' :: rest) ≠ []) :
    ∃ b c d, net.parseIPv4 ('1' :: '2' :: '7' :: '.' :: rest) = net.IPv4 127 b c d := by
  obtain ⟨_, a, b, c, d, habcd⟩ := parseIPv4_chars _ h
  have hstep : net.parseIPv4Loop net.IPv4len 0 ('1' :: '2' :: '7' :: '.' :: rest)
      = match net.parseIPv4Loop 3 1 ('.' :: rest) with
        | none => none
        | some (p, r) => some (127 :: p, r) := by
    show net.parseIPv4Loop (3 + 1) 0 _ = _
    rw [net.parseIPv4Loop]
    simp [dtoi_127]
  unfold net.parseIPv4 at habcd h ⊢
  rw [hstep] at habcd h ⊢
  cases hrec : net.parseIPv4Loop 3 1 ('.' :: rest) with
  | none => simp [hrec] at h
  | some pr =>
    obtain ⟨p, r⟩ := pr
    simp only [hrec] at h ⊢
    split
    · rename_i a1 b1 c1 d1 heq
      simp only [Option.some.injEq, Prod.mk.injEq, List.cons.injEq] at heq
      obtain ⟨⟨rfl, _⟩, _⟩ := heq
      exact ⟨b1, c1, d1, rfl⟩
    · rename_i hne
      split at h
      · rename_i a1 b1 c1 d1 heq
        exact absurd heq (hne a1 b1 c1 d1)
      · exact absurd rfl h

theorem isPrivateIP_loopback_v4 (b c d : Nat) : isPrivateIP (net.IPv4 127 b c d) = some true := by
  have h4 := To4_mapped 127 b c d
  simp [isPrivateIP, net.IsLoopback, net.IPv4, h4]

/-- The handler on a request whose normalized address is private. -/
theorem handler_private (get : String → Reply) (r : Request)
    (h : isPrivateIP (net.ParseIP (getValidIP (candidate r))) = some true) :
    (handler get r).lookups = [] ∧ (handler get r).panicked = false
      ∧ (handler get r).body = generateResponse (getValidIP (candidate r)) "NA" "NA" := by
  have hne : getValidIP (candidate r) ≠ "" := by
    intro h0
    rw [h0] at h
    revert h; decide
  simp [handler, hne, h]

theorem generateResponse_NA_contains (ip : String) :
    strings.Contains (generateResponse ip "NA" "NA") "Time Zone: NA" = true
    ∧ strings.Contains (generateResponse ip "NA" "NA") "Location: NA" = true := by
  have hNA : template.htmlEscaper "NA" = "NA" := by decide
  rw [generateResponse_eq, hNA]
  constructor
  · have e : "<html><head><title></title></head><body><div>Current IP Address: "
          ++ template.htmlEscaper ip ++ "</div><div>Time Zone: " ++ "NA"
          ++ "</div><div>Location: " ++ "NA" ++ "</div></body></html>"
        = ("<html><head><title></title></head><body><div>Current IP Address: "
            ++ template.htmlEscaper ip ++ "</div><div>") ++ "Time Zone: NA"
          ++ "</div><div>Location: NA</div></body></html>" := by
      apply String.ext
      simp [String.data_append]
    rw [e]
    exact Contains_append_mid _ _ _
  · have e : "<html><head><title></title></head><body><div>Current IP Address: "
          ++ template.htmlEscaper ip ++ "</div><div>Time Zone: " ++ "NA"
          ++ "</div><div>Location: " ++ "NA" ++ "</div></body></html>"
        = ("<html><head><title></title></head><body><div>Current IP Address: "
            ++ template.htmlEscaper ip ++ "</div><div>Time Zone: NA</div><div>") ++ "Location: NA"
          ++ "</div></body></html>" := by
      apply String.ext
      simp [String.data_append]
    rw [e]
    exact Contains_append_mid _ _ _

/-- Claim C10.  For every request whose normalized address `isPrivateIP` classifies as
private, the handler makes no call to `getGeolocation` and the response body is
`generateResponse(ip, "NA", "NA")`, which contains `Time Zone: NA` and `Location: NA`;
such are the requests without forwarding header whose peer address is `127.` + rest
+ `:` + port, with `127.` + rest an accepted literal and a port holding neither `:`
nor `]`, and those whose peer address is `[::1]:` + port. -/
theorem C10_private_address_skips_lookup :
    (∀ (get : String → Reply) (r : Request),
        isPrivateIP (net.ParseIP (getValidIP (candidate r))) = some true →
        (handler get r).lookups = [] ∧ (handler get r).panicked = false
        ∧ (handler get r).body = generateResponse (getValidIP (candidate r)) "NA" "NA"
        ∧ strings.Contains (handler get r).body "Time Zone: NA" = true
        ∧ strings.Contains (handler get r).body "Location: NA" = true)
    ∧ (∀ (get : String → Reply) (r : Request) (rest port : String),
        r.Header.Get "X-Forwarded-For" = "" → r.RemoteAddr = "127." ++ rest ++ ":" ++ port →
        net.ParseIP ("127." ++ rest) ≠ [] → ':' ∉ port.data → ']' ∉ port.data →
        isPrivateIP (net.ParseIP (getValidIP (candidate r))) = some true
        ∧ (handler get r).lookups = []
        ∧ (handler get r).body = generateResponse ("127." ++ rest) "NA" "NA")
    ∧ (∀ (get : String → Reply) (r : Request) (port : String),
        r.Header.Get "X-Forwarded-For" = "" → r.RemoteAddr = "[" ++ "::1" ++ "]:" ++ port →
        isPrivateIP (net.ParseIP (getValidIP (candidate r))) = some true
        ∧ (handler get r).lookups = []
        ∧ (handler get r).body = generateResponse "::1" "NA" "NA") := by
  refine ⟨?_, ?_, ?_⟩
  · intro get r h
    obtain ⟨h1, h2, h3⟩ := handler_private get r h
    refine ⟨h1, h2, h3, ?_, ?_⟩
    · rw [h3]; exact (generateResponse_NA_contains _).1
    · rw [h3]; exact (generateResponse_NA_contains _).2
  · intro get r rest port hhead haddr hvalid hp1 hp2
    have hcand : candidate r = "127." ++ rest ++ ":" ++ port := by
      simp [candidate, hhead, haddr]
    have hdata : ("127." ++ rest).data = '1' :: '2' :: '7' :: '.' :: rest.data := by
      simp [String.data_append]
    have hscan : net.ParseIP ("127." ++ rest) = net.parseIPv4 ('1' :: '2' :: '7' :: '.' :: rest.data) := by
      simp [net.ParseIP, hdata, net.parseIPScan]
    have hv4 : net.parseIPv4 ('1' :: '2' :: '7' :: '.' :: rest.data) ≠ [] := by
      rw [← hscan]; exact hvalid
    have hcolon : ':' ∉ ("127." ++ rest).data := by
      rw [hdata]
      intro hmem
      exact v4Char_ne_colon ((parseIPv4_chars _ hv4).1 _ hmem) rfl
    have hnorm : getValidIP (candidate r) = "127." ++ rest := by
      rw [hcand]; exact getValidIP_v4_port _ _ hvalid hcolon hp1 hp2
    have hpriv : isPrivateIP (net.ParseIP (getValidIP (candidate r))) = some true := by
      obtain ⟨b, c, d, hb⟩ := parseIPv4_127 rest.data hv4
      rw [hnorm, hscan, hb]
      exact isPrivateIP_loopback_v4 b c d
    obtain ⟨h1, _, h3⟩ := handler_private get r hpriv
    exact ⟨hpriv, h1, by rw [h3, hnorm]⟩
  · intro get r port hhead haddr
    have hcand : candidate r = "[" ++ "::1" ++ "]:" ++ port := by
      simp [candidate, hhead, haddr]
    have hnorm : getValidIP (candidate r) = "::1" := by
      rw [hcand]; exact getValidIP_bracket_port "::1" port (by decide)
    have hpriv : isPrivateIP (net.ParseIP (getValidIP (candidate r))) = some true := by
      rw [hnorm]; decide
    obtain ⟨h1, _, h3⟩ := handler_private get r hpriv
    exact ⟨hpriv, h1, by rw [h3, hnorm]⟩

/-- Instances of C10: the request of the test `TestMain` (peer `127.0.0.1`, no
forwarding header) and the same from the IPv6 loopback. -/
theorem C10_private_address_skips_lookup_witness :
    ((handler (fun _ => Reply.getErr "unreachable")
        { Host := "localhost", RemoteAddr := "127." ++ "0.0.1" ++ ":" ++ "53412", Header := [] }).lookups = []
      ∧ (handler (fun _ => Reply.getErr "unreachable")
        { Host := "localhost", RemoteAddr := "127." ++ "0.0.1" ++ ":" ++ "53412", Header := [] }).body
        = generateResponse ("127." ++ "0.0.1") "NA" "NA")
    ∧ (handler (fun _ => Reply.getErr "unreachable")
        { Host := "localhost", RemoteAddr := "[" ++ "::1" ++ "]:" ++ "53412", Header := [] }).body
        = generateResponse "::1" "NA" "NA"
    ∧ strings.Contains (handler (fun _ => Reply.getErr "unreachable")
        { Host := "localhost", RemoteAddr := "10.1.2.3:80", Header := [] }).body "Time Zone: NA" = true :=
  ⟨(C10_private_address_skips_lookup.2.1 (fun _ => Reply.getErr "unreachable")
      { Host := "localhost", RemoteAddr := "127." ++ "0.0.1" ++ ":" ++ "53412", Header := [] }
      "0.0.1" "53412" (by decide) rfl (by decide) (by decide) (by decide)).2,
   (C10_private_address_skips_lookup.2.2 (fun _ => Reply.getErr "unreachable")
      { Host := "localhost", RemoteAddr := "[" ++ "::1" ++ "]:" ++ "53412", Header := [] }
      "53412" (by decide) rfl).2.2,
   (C10_private_address_skips_lookup.1 (fun _ => Reply.getErr "unreachable")
      { Host := "localhost", RemoteAddr := "10.1.2.3:80", Header := [] } (by decide)).2.2.2.1⟩

end CheckGeolocation
